import Mathlib

/-!
Verification development for the `ugcworld` control plane.

This file shallowly embeds the Python sources of the repository
(`ugc_backend/database.py`, `ugc_backend/job_worker.py`, `ugc_backend/app.py`,
`server_python/app.py`, `server_python/spell_storage.py`) as executable Lean
definitions and proves the behavioural properties stated in the specification.

Modelling conventions:
* SQLite tables are lists of row structures; `AUTOINCREMENT` ids are an
  explicit counter threaded through the database state.
* Python dicts keyed by strings are association lists queried with `find?`
  (first match), updated by cons-after-filter (unique-key dict semantics).
* Byte strings are `List Nat` (each entry a byte value); `hashlib.sha256` is
  implemented in full; `str.encode("utf-8")`/`bytes.decode("utf-8")` are an
  executable UTF-8 codec.
* Timestamps carry no behavioural weight in the verified claims and are
  elided from rows; where expiry matters (sessions) time is an explicit
  natural-number parameter.
* External nondeterminism (uuid fragments, the spawned game-server process)
  is passed in as explicit parameters describing the observed behaviour.
-/

set_option autoImplicit false

/-! ## Byte-level helpers: SHA-256 (`hashlib.sha256(...).hexdigest()`) -/

/-- Truncate to a 32-bit word. -/
def w32 (n : Nat) : Nat := n % 4294967296

/-- Right rotation of a 32-bit word. -/
def rotr32 (x n : Nat) : Nat := w32 ((x >>> n) ||| (x <<< (32 - n)))

def sha256Sig0 (x : Nat) : Nat := rotr32 x 7 ^^^ rotr32 x 18 ^^^ (x >>> 3)
def sha256Sig1 (x : Nat) : Nat := rotr32 x 17 ^^^ rotr32 x 19 ^^^ (x >>> 10)
def sha256Cap0 (x : Nat) : Nat := rotr32 x 2 ^^^ rotr32 x 13 ^^^ rotr32 x 22
def sha256Cap1 (x : Nat) : Nat := rotr32 x 6 ^^^ rotr32 x 11 ^^^ rotr32 x 25
def sha256Ch (x y z : Nat) : Nat := (x &&& y) ^^^ ((4294967295 - x) &&& z)
def sha256Maj (x y z : Nat) : Nat := (x &&& y) ^^^ (x &&& z) ^^^ (y &&& z)

def sha256K : List Nat :=
  [1116352408, 1899447441, 3049323471, 3921009573, 961987163,
   1508970993, 2453635748, 2870763221, 3624381080, 310598401,
   607225278, 1426881987, 1925078388, 2162078206, 2614888103,
   3248222580, 3835390401, 4022224774, 264347078, 604807628,
   770255983, 1249150122, 1555081692, 1996064986, 2554220882,
   2821834349, 2952996808, 3210313671, 3336571891, 3584528711,
   113926993, 338241895, 666307205, 773529912, 1294757372,
   1396182291, 1695183700, 1986661051, 2177026350, 2456956037,
   2730485921, 2820302411, 3259730800, 3345764771, 3516065817,
   3600352804, 4094571909, 275423344, 430227734, 506948616,
   659060556, 883997877, 958139571, 1322822218, 1537002063,
   1747873779, 1955562222, 2024104815, 2227730452, 2361852424,
   2428436474, 2756734187, 3204031479, 3329325298]

def sha256H0 : List Nat :=
  [1779033703, 3144134277, 1013904242, 2773480762,
   1359893119, 2600822924, 528734635, 1541459225]

/-- SHA-256 padding: append `0x80`, zero bytes, and the 64-bit big-endian bit length. -/
def sha256Pad (msg : List Nat) : List Nat :=
  let padZeros := (119 - msg.length % 64) % 64
  let bitLen := 8 * msg.length
  msg ++ 0x80 :: List.replicate padZeros 0 ++
    [(bitLen >>> 56) % 256, (bitLen >>> 48) % 256, (bitLen >>> 40) % 256, (bitLen >>> 32) % 256,
     (bitLen >>> 24) % 256, (bitLen >>> 16) % 256, (bitLen >>> 8) % 256, bitLen % 256]

/-- Group bytes into big-endian 32-bit words. -/
def bytesToWords (bs : List Nat) : List Nat :=
  if h : bs = [] then []
  else
    (bs.getD 0 0 * 16777216 + bs.getD 1 0 * 65536 + bs.getD 2 0 * 256 + bs.getD 3 0)
      :: bytesToWords (bs.drop 4)
termination_by bs.length
decreasing_by
  simp only [List.length_drop]
  have := List.length_pos.mpr h
  omega

/-- Group a word list into 16-word blocks. -/
def chunk16 (ws : List Nat) : List (List Nat) :=
  if h : ws = [] then []
  else ws.take 16 :: chunk16 (ws.drop 16)
termination_by ws.length
decreasing_by
  simp only [List.length_drop]
  have := List.length_pos.mpr h
  omega

/-- Extend a 16-word block by `k` schedule words. -/
def sha256Extend (ws : List Nat) : Nat → List Nat
  | 0 => ws
  | k + 1 =>
    let w := sha256Extend ws k
    let t := w.length
    w ++ [w32 (sha256Sig1 (w.getD (t - 2) 0) + w.getD (t - 7) 0 +
               sha256Sig0 (w.getD (t - 15) 0) + w.getD (t - 16) 0)]

/-- One compression round over the 8-word working state. -/
def sha256Round (st : List Nat) (w k : Nat) : List Nat :=
  match st with
  | [a, b, c, d, e, f, g, h] =>
    let t1 := w32 (h + sha256Cap1 e + sha256Ch e f g + k + w)
    let t2 := w32 (sha256Cap0 a + sha256Maj a b c)
    [w32 (t1 + t2), a, b, c, w32 (d + t1), e, f, g]
  | other => other

/-- Compress one 512-bit block into the hash state. -/
def sha256Compress (hs : List Nat) (block : List Nat) : List Nat :=
  let w := sha256Extend block 48
  let fin := (w.zip sha256K).foldl (fun st p => sha256Round st p.1 p.2) hs
  (hs.zip fin).map (fun p => w32 (p.1 + p.2))

/-- SHA-256 digest of a byte string, as 32 bytes. -/
def sha256Bytes (msg : List Nat) : List Nat :=
  let hs := (chunk16 (bytesToWords (sha256Pad msg))).foldl sha256Compress sha256H0
  hs.flatMap (fun h => [(h >>> 24) % 256, (h >>> 16) % 256, (h >>> 8) % 256, h % 256])

def hexDigit (n : Nat) : Char := if n < 10 then Char.ofNat (48 + n) else Char.ofNat (87 + n)

def hexOfBytes (bs : List Nat) : String :=
  ⟨bs.flatMap (fun b => [hexDigit (b / 16), hexDigit (b % 16)])⟩

/-! ## UTF-8 codec (`str.encode("utf-8")` / `bytes.decode("utf-8")`) -/

/-- UTF-8 encoding of one Unicode scalar value. -/
def utf8EncodeChar (n : Nat) : List Nat :=
  if n < 128 then [n]
  else if n < 2048 then [192 + n / 64, 128 + n % 64]
  else if n < 65536 then [224 + n / 4096, 128 + (n / 64) % 64, 128 + n % 64]
  else [240 + n / 262144, 128 + (n / 4096) % 64, 128 + (n / 64) % 64, 128 + n % 64]

def utf8Encode (s : String) : List Nat := s.data.flatMap (fun c => utf8EncodeChar c.toNat)

/-- Decode one UTF-8 sequence: the produced character and the remaining bytes. -/
def utf8Step (b : Nat) (bs : List Nat) : Char × List Nat :=
  if b < 128 then (Char.ofNat b, bs)
  else if b < 224 then
    match bs with
    | b1 :: rest => (Char.ofNat ((b % 32) * 64 + b1 % 64), rest)
    | [] => (Char.ofNat 0, [])
  else if b < 240 then
    match bs with
    | b1 :: b2 :: rest => (Char.ofNat ((b % 16) * 4096 + (b1 % 64) * 64 + b2 % 64), rest)
    | _ => (Char.ofNat 0, [])
  else
    match bs with
    | b1 :: b2 :: b3 :: rest =>
        (Char.ofNat ((b % 8) * 262144 + (b1 % 64) * 4096 + (b2 % 64) * 64 + b3 % 64), rest)
    | _ => (Char.ofNat 0, [])

theorem utf8Step_snd_le (b : Nat) (bs : List Nat) : (utf8Step b bs).2.length ≤ bs.length := by
  unfold utf8Step
  repeat' split
  all_goals simp_all
  all_goals omega

/-- UTF-8 decoding (total; only applied to encoder output in this development). -/
def utf8DecodeList : List Nat → List Char
  | [] => []
  | b :: bs => (utf8Step b bs).1 :: utf8DecodeList (utf8Step b bs).2
termination_by bs => bs.length
decreasing_by
  have := utf8Step_snd_le b bs
  simp only [List.length_cons]
  omega

def utf8Decode (bs : List Nat) : String := ⟨utf8DecodeList bs⟩

theorem char_toNat_lt (c : Char) : c.toNat < 1114112 := by
  have e : c.toNat = c.val.toNat := rfl
  rcases c.valid with h | ⟨_, h2⟩
  · have : c.val.toNat < 55296 := h
    omega
  · have : c.val.toNat < 1114112 := h2
    omega

/-- Auxiliary modular-arithmetic step: leading constants that are multiples of the
modulus drop out. -/
theorem mod_add_high (c m x : Nat) (hc : c % m = 0) : (c + x) % m = x % m := by
  rw [Nat.add_mod, hc, Nat.zero_add, Nat.mod_mod_of_dvd x (dvd_refl m)]

theorem utf8DecodeList_nil : utf8DecodeList [] = [] := by
  rw [utf8DecodeList]

theorem utf8DecodeList_cons (b : Nat) (bs : List Nat) :
    utf8DecodeList (b :: bs) = (utf8Step b bs).1 :: utf8DecodeList (utf8Step b bs).2 := by
  rw [utf8DecodeList]

theorem utf8DecodeList_encodeChar (n : Nat) (hn : n < 1114112) (bs : List Nat) :
    utf8DecodeList (utf8EncodeChar n ++ bs) = Char.ofNat n :: utf8DecodeList bs := by
  by_cases h1 : n < 128
  · rw [utf8EncodeChar, if_pos h1, List.cons_append, List.nil_append, utf8DecodeList_cons,
      show utf8Step n bs = (Char.ofNat n, bs) by rw [utf8Step.eq_def, if_pos h1]]
  · by_cases h2 : n < 2048
    · have e1 : ¬(192 + n / 64 < 128) := by omega
      have e2 : 192 + n / 64 < 224 := by omega
      have hX : (192 + n / 64) % 32 * 64 + (128 + n % 64) % 64 = n := by
        rw [mod_add_high 192 32 (n / 64) rfl, mod_add_high 128 64 (n % 64) rfl,
          Nat.mod_eq_of_lt (show n / 64 < 32 by omega),
          Nat.mod_eq_of_lt (show n % 64 < 64 by omega)]
        omega
      have hs : utf8Step (192 + n / 64) ((128 + n % 64) :: bs) = (Char.ofNat n, bs) := by
        rw [utf8Step.eq_def, if_neg e1, if_pos e2]
        show (Char.ofNat ((192 + n / 64) % 32 * 64 + (128 + n % 64) % 64), bs) = _
        rw [hX]
      rw [utf8EncodeChar, if_neg h1, if_pos h2, List.cons_append, List.cons_append,
        List.nil_append, utf8DecodeList_cons, hs]
    · by_cases h3 : n < 65536
      · have e1 : ¬(224 + n / 4096 < 128) := by omega
        have e2 : ¬(224 + n / 4096 < 224) := by omega
        have e3 : 224 + n / 4096 < 240 := by omega
        have hX : (224 + n / 4096) % 16 * 4096 + (128 + n / 64 % 64) % 64 * 64 +
            (128 + n % 64) % 64 = n := by
          rw [mod_add_high 224 16 (n / 4096) rfl, mod_add_high 128 64 (n / 64 % 64) rfl,
            mod_add_high 128 64 (n % 64) rfl,
            Nat.mod_eq_of_lt (show n / 4096 < 16 by omega),
            Nat.mod_mod_of_dvd (n / 64) (dvd_refl 64),
            Nat.mod_eq_of_lt (show n % 64 < 64 by omega)]
          omega
        have hs : utf8Step (224 + n / 4096) ((128 + n / 64 % 64) :: (128 + n % 64) :: bs) =
            (Char.ofNat n, bs) := by
          rw [utf8Step.eq_def, if_neg e1, if_neg e2, if_pos e3]
          show (Char.ofNat ((224 + n / 4096) % 16 * 4096 + (128 + n / 64 % 64) % 64 * 64 +
            (128 + n % 64) % 64), bs) = _
          rw [hX]
        rw [utf8EncodeChar, if_neg h1, if_neg h2, if_pos h3, List.cons_append, List.cons_append,
          List.cons_append, List.nil_append, utf8DecodeList_cons, hs]
      · have e1 : ¬(240 + n / 262144 < 128) := by omega
        have e2 : ¬(240 + n / 262144 < 224) := by omega
        have e3 : ¬(240 + n / 262144 < 240) := by omega
        have hX : (240 + n / 262144) % 8 * 262144 + (128 + n / 4096 % 64) % 64 * 4096 +
            (128 + n / 64 % 64) % 64 * 64 + (128 + n % 64) % 64 = n := by
          rw [mod_add_high 240 8 (n / 262144) rfl, mod_add_high 128 64 (n / 4096 % 64) rfl,
            mod_add_high 128 64 (n / 64 % 64) rfl, mod_add_high 128 64 (n % 64) rfl,
            Nat.mod_eq_of_lt (show n / 262144 < 8 by omega),
            Nat.mod_mod_of_dvd (n / 4096) (dvd_refl 64),
            Nat.mod_mod_of_dvd (n / 64) (dvd_refl 64),
            Nat.mod_eq_of_lt (show n % 64 < 64 by omega)]
          omega
        have hs : utf8Step (240 + n / 262144)
            ((128 + n / 4096 % 64) :: (128 + n / 64 % 64) :: (128 + n % 64) :: bs) =
            (Char.ofNat n, bs) := by
          rw [utf8Step.eq_def, if_neg e1, if_neg e2, if_neg e3]
          show (Char.ofNat ((240 + n / 262144) % 8 * 262144 + (128 + n / 4096 % 64) % 64 * 4096 +
            (128 + n / 64 % 64) % 64 * 64 + (128 + n % 64) % 64), bs) = _
          rw [hX]
        rw [utf8EncodeChar, if_neg h1, if_neg h2, if_neg h3, List.cons_append, List.cons_append,
          List.cons_append, List.cons_append, List.nil_append, utf8DecodeList_cons, hs]

theorem utf8DecodeList_encode_data (l : List Char) :
    utf8DecodeList (l.flatMap (fun c => utf8EncodeChar c.toNat)) = l := by
  induction l with
  | nil => rw [List.flatMap_nil, utf8DecodeList_nil]
  | cons c cs ih =>
    rw [List.flatMap_cons,
      utf8DecodeList_encodeChar c.toNat (char_toNat_lt c)
        (cs.flatMap (fun c => utf8EncodeChar c.toNat)),
      ih, Char.ofNat_toNat]

/-- Decoding inverts encoding: `b.decode("utf-8")` of `s.encode("utf-8")` is `s`. -/
theorem utf8Decode_encode (s : String) : utf8Decode (utf8Encode s) = s := by
  cases s with
  | mk data =>
    show utf8Decode (List.flatMap data _) = _
    unfold utf8Decode
    rw [utf8DecodeList_encode_data]

theorem utf8EncodeChar_ne_nil (n : Nat) : utf8EncodeChar n ≠ [] := by
  unfold utf8EncodeChar
  split <;> try simp
  split <;> try simp
  split <;> simp

theorem utf8Encode_eq_nil_iff (s : String) : utf8Encode s = [] ↔ s.data = [] := by
  cases s with
  | mk data =>
    show List.flatMap data _ = [] ↔ _
    cases data with
    | nil => simp
    | cons c cs =>
      simp only [List.flatMap_cons]
      constructor
      · intro h
        exact absurd (List.append_eq_nil.mp h).1 (utf8EncodeChar_ne_nil c.toNat)
      · intro h
        exact absurd h (by simp)

/-! ## Substring check (Python `pat in code_content`) -/

/-- Boolean prefix test on character lists. -/
def chkPre : List Char → List Char → Bool
  | [], _ => true
  | _ :: _, [] => false
  | a :: as, b :: bs => a == b && chkPre as bs

/-- Boolean infix (substring) test on character lists. -/
def chkSub (pat : List Char) : List Char → Bool
  | [] => chkPre pat []
  | c :: rest => chkPre pat (c :: rest) || chkSub pat rest

/-- Python's `pat in s` substring containment on strings. -/
def hasSubstr (pat s : String) : Bool := chkSub pat.data s.data

theorem hasSubstr_data_ne_nil {pat s : String} (hp : pat.data ≠ [])
    (h : hasSubstr pat s = true) : s.data ≠ [] := by
  intro hs
  unfold hasSubstr at h
  rw [hs] at h
  unfold chkSub at h
  cases hd : pat.data with
  | nil => exact hp hd
  | cons a as =>
    rw [hd] at h
    simp [chkPre] at h

/-! ## Paths and the content store (`server_python/spell_storage.py`) -/

/-- POSIX absolute-path test (`os.path.isabs`). -/
def isAbsPath (p : String) : Bool :=
  match p.data with
  | '/' :: _ => true
  | _ => false

/-- Two-component `os.path.join`: an absolute second component discards the first. -/
def joinPath (a b : String) : String := if isAbsPath b then b else a ++ "/" ++ b

/-- `SPELLS_DIR`: the `data/spells` tree rooted next to the module. -/
def SPELLS_DIR : String := "data/spells"

def get_spell_dir (spell_id : String) : String := joinPath SPELLS_DIR spell_id

def get_revision_dir (spell_id revision_id : String) : String :=
  joinPath (joinPath (get_spell_dir spell_id) "revisions") revision_id

def get_manifest_path (spell_id revision_id : String) : String :=
  joinPath (get_revision_dir spell_id revision_id) "manifest.json"

/-- `compute_file_hash`: SHA-256 hex digest of the content bytes. -/
def compute_file_hash (content : List Nat) : String := hexOfBytes (sha256Bytes content)

/-- The `{path, hash, size}` record returned by `write_revision_file`. -/
structure FileInfo where
  path : String
  hash : String
  size : Nat
deriving DecidableEq

/-- Python `str.replace("_", " ")`. -/
def underscoreToSpace (s : String) : String := ⟨s.data.map (fun c => if c == '_' then ' ' else c)⟩

def titleGo : Bool → List Char → List Char
  | _, [] => []
  | prevAlpha, c :: cs =>
    (if c.isAlpha then (if prevAlpha then c.toLower else c.toUpper) else c) :: titleGo c.isAlpha cs

/-- Python `str.title()` (ASCII-adequate: capitalise each run of letters). -/
def titleCase (s : String) : String := ⟨titleGo false s.data⟩

/-- Manifest `metadata` block. -/
structure SpellMeta where
  name : String
  description : String
  tags : List String
  preview_icon : Option String
deriving DecidableEq

/-- Manifest document (`created_at` elided: it is an uninterpreted timestamp). -/
structure Manifest where
  spell_id : String
  revision_id : String
  version : Nat
  entrypoint : String
  language : String
  interface_version : String
  code : List FileInfo
  assets : List FileInfo
  metadata : SpellMeta
deriving DecidableEq

/-- On-disk state of the content store: file contents, manifest documents and
created directories, keyed by resolved paths. -/
structure ContentStore where
  files : List (String × List Nat)
  manifests : List (String × Manifest)
  dirs : List String
deriving DecidableEq

def emptyCS : ContentStore := ⟨[], [], []⟩

def create_revision_directory (cs : ContentStore) (spell_id revision_id : String) : ContentStore :=
  let revision_dir := get_revision_dir spell_id revision_id
  { cs with dirs := joinPath revision_dir "code" :: joinPath revision_dir "assets" ::
      joinPath revision_dir "text" :: revision_dir :: cs.dirs }

def write_revision_file (cs : ContentStore) (spell_id revision_id relative_path : String)
    (content : List Nat) : ContentStore × FileInfo :=
  let file_path := joinPath (get_revision_dir spell_id revision_id) relative_path
  ({ cs with files := (file_path, content) :: cs.files },
   { path := relative_path, hash := compute_file_hash content, size := content.length })

def write_revision_file_text (cs : ContentStore) (spell_id revision_id relative_path : String)
    (content : String) : ContentStore × FileInfo :=
  write_revision_file cs spell_id revision_id relative_path (utf8Encode content)

def read_revision_file (cs : ContentStore) (spell_id revision_id relative_path : String) :
    Option (List Nat) :=
  (cs.files.find? (fun e => e.1 == joinPath (get_revision_dir spell_id revision_id) relative_path)).map
    (fun e => e.2)

def revision_exists (cs : ContentStore) (spell_id revision_id : String) : Bool :=
  cs.dirs.contains (get_revision_dir spell_id revision_id)

def create_manifest (spell_id revision_id : String) (version : Nat) (entrypoint : String)
    (metadata : Option SpellMeta) (code_files asset_files : Option (List FileInfo)) : Manifest :=
  { spell_id := spell_id, revision_id := revision_id, version := version,
    entrypoint := entrypoint, language := "gdscript", interface_version := "1.0",
    code := code_files.getD [], assets := asset_files.getD [],
    metadata := metadata.getD
      { name := titleCase (underscoreToSpace spell_id),
        description := "A spell package for " ++ spell_id, tags := [], preview_icon := none } }

def write_manifest (cs : ContentStore) (spell_id revision_id : String) (m : Manifest) :
    ContentStore :=
  { cs with manifests := (get_manifest_path spell_id revision_id, m) :: cs.manifests }

def read_manifest (cs : ContentStore) (spell_id revision_id : String) : Option Manifest :=
  (cs.manifests.find? (fun e => e.1 == get_manifest_path spell_id revision_id)).map (fun e => e.2)

/-! ## Metadata store (`ugc_backend/database.py`) -/

structure SpellRow where
  spell_id : String
  display_name : String
  active_draft_rev : Option String
  active_beta_rev : Option String
  active_stable_rev : Option String
deriving DecidableEq

structure RevisionRow where
  revision_id : String
  spell_id : String
  parent_revision_id : Option String
  channel : String
  version : Nat
  manifest : Manifest
deriving DecidableEq

structure JobRow where
  job_id : String
  spell_id : String
  draft_id : Option String
  status : String
  stage : String
  progress_pct : Nat
  logs : Option String
  error_message : Option String
  result_revision_id : Option String
deriving DecidableEq

structure WorldRow where
  world_id : String
  name : String
  description : Option String
  created_by : Option String
  player_count : Int
deriving DecidableEq

structure WorldOpRow where
  op_id : Nat
  world_id : String
  op_type : String
  op_data : String
deriving DecidableEq

/-- The SQLite database: one list per table plus the `world_ops` AUTOINCREMENT counter. -/
structure DB where
  spells : List SpellRow
  revisions : List RevisionRow
  jobs : List JobRow
  worlds : List WorldRow
  world_ops : List WorldOpRow
  next_op_id : Nat
deriving DecidableEq

def emptyDB : DB := ⟨[], [], [], [], [], 1⟩

def create_spell (db : DB) (spell_id : String) (display_name : Option String) : DB :=
  let dn := match display_name with
    | some d => if d == "" then titleCase (underscoreToSpace spell_id) else d
    | none => titleCase (underscoreToSpace spell_id)
  { db with spells := db.spells ++
      [{ spell_id := spell_id, display_name := dn, active_draft_rev := none,
         active_beta_rev := none, active_stable_rev := none }] }

def get_spell (db : DB) (spell_id : String) : Option SpellRow :=
  db.spells.find? (fun s => s.spell_id == spell_id)

def spell_exists (db : DB) (spell_id : String) : Bool :=
  (get_spell db spell_id).isSome

/-- The `SET {column} = ?` dispatch of `update_spell_active_revision`, per channel. -/
def setActiveRev (s : SpellRow) (channel revision_id : String) : SpellRow :=
  if channel == "draft" then { s with active_draft_rev := some revision_id }
  else if channel == "beta" then { s with active_beta_rev := some revision_id }
  else if channel == "stable" then { s with active_stable_rev := some revision_id }
  else s

def update_spell_active_revision (db : DB) (spell_id channel revision_id : String) : DB × Bool :=
  let column := "active_" ++ channel ++ "_rev"
  if column ∈ (["active_draft_rev", "active_beta_rev", "active_stable_rev"] : List String) then
    ({ db with spells := db.spells.map (fun s =>
        if s.spell_id == spell_id then setActiveRev s channel revision_id else s) },
     db.spells.any (fun s => s.spell_id == spell_id))
  else (db, false)

def create_revision (db : DB) (revision_id spell_id : String) (manifest : Manifest)
    (channel : String) (version : Nat) (parent_revision_id : Option String) : DB :=
  { db with revisions := db.revisions ++
      [{ revision_id := revision_id, spell_id := spell_id,
         parent_revision_id := parent_revision_id, channel := channel, version := version,
         manifest := manifest }] }

def get_revision (db : DB) (revision_id : String) : Option RevisionRow :=
  db.revisions.find? (fun r => r.revision_id == revision_id)

def get_next_version (db : DB) (spell_id : String) : Nat :=
  ((db.revisions.filter (fun r => r.spell_id == spell_id)).map (fun r => r.version)).foldr max 0 + 1

def create_job (db : DB) (job_id spell_id : String) (draft_id : Option String) : DB :=
  { db with jobs := db.jobs ++
      [{ job_id := job_id, spell_id := spell_id, draft_id := draft_id, status := "pending",
         stage := "waiting", progress_pct := 0, logs := none, error_message := none,
         result_revision_id := none }] }

def get_job (db : DB) (job_id : String) : Option JobRow :=
  db.jobs.find? (fun j => j.job_id == job_id)

/-- Field patch applied by `update_job` to the matching row (None arguments keep the field). -/
def patchJob (j : JobRow) (status stage : Option String) (progress_pct : Option Nat)
    (logs error_message result_revision_id : Option String) : JobRow :=
  { j with
    status := status.getD j.status,
    stage := stage.getD j.stage,
    progress_pct := progress_pct.getD j.progress_pct,
    logs := match logs with | some v => some v | none => j.logs,
    error_message := match error_message with | some v => some v | none => j.error_message,
    result_revision_id :=
      match result_revision_id with | some v => some v | none => j.result_revision_id }

def update_job (db : DB) (job_id : String) (status stage : Option String)
    (progress_pct : Option Nat) (logs error_message result_revision_id : Option String) :
    DB × Bool :=
  ({ db with jobs := db.jobs.map (fun j =>
      if j.job_id == job_id then
        patchJob j status stage progress_pct logs error_message result_revision_id
      else j) },
   db.jobs.any (fun j => j.job_id == job_id))

def create_world (db : DB) (name : String) (description created_by : Option String)
    (nonce : String) : DB × String :=
  let world_id := "world_" ++ nonce
  ({ db with worlds := db.worlds ++
      [{ world_id := world_id, name := name, description := description,
         created_by := created_by, player_count := 0 }] }, world_id)

def get_world (db : DB) (world_id : String) : Option WorldRow :=
  db.worlds.find? (fun w => w.world_id == world_id)

def world_exists (db : DB) (world_id : String) : Bool :=
  (get_world db world_id).isSome

/-- `UPDATE worlds SET player_count = MAX(0, player_count + ?)`. -/
def update_world_player_count (db : DB) (world_id : String) (delta : Int) : DB × Bool :=
  ({ db with worlds := db.worlds.map (fun w =>
      if w.world_id == world_id then { w with player_count := max 0 (w.player_count + delta) }
      else w) },
   db.worlds.any (fun w => w.world_id == world_id))

def add_world_op (db : DB) (world_id op_type op_data : String) : DB × Nat :=
  let row : WorldOpRow :=
    { op_id := db.next_op_id, world_id := world_id, op_type := op_type, op_data := op_data }
  ({ db with world_ops := db.world_ops ++ [row], next_op_id := db.next_op_id + 1 },
   db.next_op_id)

def insertByOpId (o : WorldOpRow) : List WorldOpRow → List WorldOpRow
  | [] => [o]
  | x :: xs => if o.op_id ≤ x.op_id then o :: x :: xs else x :: insertByOpId o xs

/-- `ORDER BY op_id ASC`. -/
def sortByOpId : List WorldOpRow → List WorldOpRow
  | [] => []
  | x :: xs => insertByOpId x (sortByOpId xs)

def get_world_ops (db : DB) (world_id : String) : List WorldOpRow :=
  sortByOpId (db.world_ops.filter (fun o => o.world_id == world_id))

def clear_world_ops (db : DB) (world_id : String) : DB × Nat :=
  ({ db with world_ops := db.world_ops.filter (fun o => !(o.world_id == world_id)) },
   (db.world_ops.filter (fun o => o.world_id == world_id)).length)

/-! ## Build pipeline worker (`ugc_backend/job_worker.py`) -/

/-- `f"rev_{version:06d}_{uuid4().hex[:8]}"`: zero-padded six-digit version. -/
def pad6 (v : Nat) : String := ⟨List.replicate (6 - (toString v).length) '0' ++ (toString v).data⟩

def mkRevisionId (version : Nat) (nonce : String) : String :=
  "rev_" ++ pad6 version ++ "_" ++ nonce

/-- `metadata` sub-dictionary of the build options. -/
structure MetaOptions where
  name : Option String
  description : Option String
  tags : Option (List String)
  preview_icon : Option String
deriving DecidableEq

/-- The `build_options` dictionary handed to `enqueue_job`. -/
structure BuildOptions where
  code : Option String
  prompt : Option String
  parent_revision_id : Option String
  metadata : MetaOptions
  icon_data : Option String
deriving DecidableEq

def noMetaOptions : MetaOptions := ⟨none, none, none, none⟩

/-- `_generate_stub_spell`. -/
def generate_stub_spell (spell_id : String) : String :=
  "extends SpellModule\n## Auto-generated spell: " ++ spell_id ++
  "\n\nfunc get_manifest() -> Dictionary:\n    return \x7b\n        \"spell_id\": \"" ++ spell_id ++
  "\",\n        \"name\": \"" ++ titleCase (underscoreToSpace spell_id) ++
  "\"\n    \x7d\n\n\nfunc on_cast(ctx: SpellContext) -> void:\n    print(\"[" ++ spell_id ++
  "] Spell cast by: \", ctx.caster_id)\n    print(\"[" ++ spell_id ++
  "] Target position: \", ctx.target_position)\n    \n    # Spawn a visual effect\n" ++
  "    if ctx.world:\n        ctx.world.play_vfx(\"default_cast\", ctx.target_position)\n\n\n" ++
  "func on_tick(ctx: SpellContext, dt: float) -> void:\n    pass  # Optional tick logic\n\n\n" ++
  "func on_cancel(ctx: SpellContext) -> void:\n    print(\"[" ++ spell_id ++
  "] Spell cancelled\")\n"

/-- `_generate_placeholder_icon`: a minimal 1x1 PNG. -/
def generate_placeholder_icon : List Nat :=
  [0x89, 0x50, 0x4E, 0x47, 0x0D, 0x0A, 0x1A, 0x0A,
   0x00, 0x00, 0x00, 0x0D, 0x49, 0x48, 0x44, 0x52,
   0x00, 0x00, 0x00, 0x01, 0x00, 0x00, 0x00, 0x01,
   0x08, 0x02, 0x00, 0x00, 0x00, 0x90, 0x77, 0x53,
   0xDE, 0x00, 0x00, 0x00, 0x0C, 0x49, 0x44, 0x41,
   0x54, 0x08, 0xD7, 0x63, 0xF8, 0xCF, 0xC0, 0x00,
   0x00, 0x00, 0x03, 0x00, 0x01, 0x00, 0x18, 0xDD,
   0x8D, 0xB4, 0x00, 0x00, 0x00, 0x00, 0x49, 0x45,
   0x4E, 0x44, 0xAE, 0x42, 0x60, 0x82]

/-- A `job.progress` callback payload (`job_id, stage, pct, message, extras`). -/
structure ProgressEvent where
  job_id : String
  stage : String
  pct : Nat
  message : String
  revision_id : Option String
  manifest : Option Manifest
deriving DecidableEq

def emitEv (job_id stage : String) (pct : Nat) (message : String) : ProgressEvent :=
  { job_id := job_id, stage := stage, pct := pct, message := message,
    revision_id := none, manifest := none }

structure PrepareOut where
  db : DB
  events : List ProgressEvent

structure AssembleOut where
  db : DB
  fs : ContentStore
  events : List ProgressEvent
  revision_id : String
  code_files : List FileInfo
  asset_files : List FileInfo

structure ValidateOut where
  db : DB
  events : List ProgressEvent
  err : Option String

structure FinalizeOut where
  db : DB
  fs : ContentStore
  events : List ProgressEvent
  manifest : Manifest

structure RunOut where
  db : DB
  fs : ContentStore
  events : List ProgressEvent
  err : Option String

structure WorkOut where
  db : DB
  fs : ContentStore
  events : List ProgressEvent

/-- `BuildJobWorker._stage_prepare`. -/
def stage_prepare (db : DB) (job_id : String) : PrepareOut :=
  let db := (update_job db job_id none (some "prepare") (some 5) none none none).1
  let e1 := emitEv job_id "prepare" 5 "Preparing build environment..."
  let db := (update_job db job_id none none (some 15) none none none).1
  let e2 := emitEv job_id "prepare" 15 "Build environment ready"
  { db := db, events := [e1, e2] }

/-- `BuildJobWorker._stage_assemble` (the uuid hex fragment is the `nonce` parameter). -/
def stage_assemble (db : DB) (fs : ContentStore) (job_id spell_id : String) (o : BuildOptions)
    (nonce : String) : AssembleOut :=
  let db := (update_job db job_id none (some "assemble_package") (some 20) none none none).1
  let e1 := emitEv job_id "assemble_package" 20 "Assembling package files..."
  let version := get_next_version db spell_id
  let revision_id := mkRevisionId version nonce
  let fs := create_revision_directory fs spell_id revision_id
  let db := (update_job db job_id none none (some 30) none none none).1
  let e2 := emitEv job_id "assemble_package" 30 ("Created revision " ++ revision_id)
  let code_content := o.code.getD (generate_stub_spell spell_id)
  let wr := write_revision_file_text fs spell_id revision_id "code/spell.gd" code_content
  let fs := wr.1
  let code_files := [wr.2]
  let db := (update_job db job_id none none (some 45) none none none).1
  let e3 := emitEv job_id "assemble_package" 45 "Wrote spell script"
  let wi :=
    match o.icon_data with
    | some icon_data => write_revision_file_text fs spell_id revision_id "assets/icon.png" icon_data
    | none =>
        write_revision_file fs spell_id revision_id "assets/icon.png" generate_placeholder_icon
  let fs := wi.1
  let asset_files := [wi.2]
  let db := (update_job db job_id none none (some 55) none none none).1
  let e4 := emitEv job_id "assemble_package" 55 "Wrote asset files"
  { db := db, fs := fs, events := [e1, e2, e3, e4], revision_id := revision_id,
    code_files := code_files, asset_files := asset_files }

/-- `BuildJobWorker._stage_validate`; `err` carries the `ValueError` message, if raised. -/
def stage_validate (db : DB) (fs : ContentStore) (job_id spell_id revision_id : String) :
    ValidateOut :=
  let db := (update_job db job_id none (some "validate") (some 60) none none none).1
  let e1 := emitEv job_id "validate" 60 "Validating spell interface..."
  match read_revision_file fs spell_id revision_id "code/spell.gd" with
  | none => { db := db, events := [e1], err := some "Spell script not found" }
  | some code_bytes =>
    if code_bytes.isEmpty then { db := db, events := [e1], err := some "Spell script not found" }
    else
      let code_content := utf8Decode code_bytes
      let missing := (["on_cast"] : List String).filter
        (fun m => !(hasSubstr ("func " ++ m) code_content))
      if missing.isEmpty then
        let db := (update_job db job_id none none (some 75) none none none).1
        { db := db, events := [e1, emitEv job_id "validate" 75 "Validation passed"], err := none }
      else
        { db := db, events := [e1],
          err := some ("Missing required methods: " ++ String.intercalate ", " missing) }

/-- The metadata default-merging block at the start of `_stage_finalize`
(`if not metadata.get("name"): ...` etc.; a missing or empty value falls back). -/
def mergeMetadata (spell_id : String) (o : BuildOptions) : SpellMeta :=
  let md := o.metadata
  { name :=
      match md.name with
      | some v => if v == "" then titleCase (underscoreToSpace spell_id) else v
      | none => titleCase (underscoreToSpace spell_id),
    description :=
      match md.description with
      | some v => if v == "" then o.prompt.getD ("A spell: " ++ spell_id) else v
      | none => o.prompt.getD ("A spell: " ++ spell_id),
    tags := md.tags.getD [],
    preview_icon := some (md.preview_icon.getD "assets/icon.png") }

/-- `BuildJobWorker._stage_finalize`. -/
def stage_finalize (db : DB) (fs : ContentStore) (job_id spell_id revision_id : String)
    (code_files asset_files : List FileInfo) (o : BuildOptions) : FinalizeOut :=
  let db := (update_job db job_id none (some "finalize") (some 80) none none none).1
  let e1 := emitEv job_id "finalize" 80 "Computing file hashes..."
  let version := get_next_version db spell_id
  let metadata := mergeMetadata spell_id o
  let manifest := create_manifest spell_id revision_id version "code/spell.gd" (some metadata)
      (some code_files) (some asset_files)
  let db := (update_job db job_id none none (some 90) none none none).1
  let e2 := emitEv job_id "finalize" 90 "Writing manifest..."
  let fs := write_manifest fs spell_id revision_id manifest
  let db := create_revision db revision_id spell_id manifest "draft" version o.parent_revision_id
  let db := (update_spell_active_revision db spell_id "draft" revision_id).1
  let db := (update_job db job_id none none (some 95) none none none).1
  let e3 := { emitEv job_id "finalize" 95 "Manifest written" with manifest := some manifest }
  { db := db, fs := fs, events := [e1, e2, e3], manifest := manifest }

/-- `BuildJobWorker._process_job`: the staged pipeline; `err` is the escaped exception. -/
def processJob (db : DB) (fs : ContentStore) (job_id : String) (o : BuildOptions)
    (nonce : String) : RunOut :=
  match get_job db job_id with
  | none => { db := db, fs := fs, events := [], err := none }
  | some job =>
    let spell_id := job.spell_id
    let db := (update_job db job_id (some "running") (some "prepare") (some 0) none none none).1
    let e0 := emitEv job_id "prepare" 0 "Starting build..."
    let p := stage_prepare db job_id
    let a := stage_assemble p.db fs job_id spell_id o nonce
    let v := stage_validate a.db a.fs job_id spell_id a.revision_id
    match v.err with
    | some msg =>
      { db := v.db, fs := a.fs, events := e0 :: (p.events ++ a.events ++ v.events),
        err := some msg }
    | none =>
      let f := stage_finalize v.db a.fs job_id spell_id a.revision_id a.code_files a.asset_files o
      let db := (update_job f.db job_id (some "completed") (some "done") (some 100) none none
          (some a.revision_id)).1
      let eDone := { emitEv job_id "done" 100 "Build complete!" with
          revision_id := some a.revision_id, manifest := some f.manifest }
      { db := db, fs := f.fs,
        events := e0 :: (p.events ++ a.events ++ v.events ++ f.events ++ [eDone]), err := none }

/-- One queue entry (`{"job_id": ..., "options": ...}` plus the uuid fragment used). -/
structure JobEntry where
  job_id : String
  options : BuildOptions
  nonce : String
deriving DecidableEq

/-- One iteration of `BuildJobWorker._run_loop`: process the job, catching any exception
by marking the job failed and emitting the terminal `error` event. -/
def runJobEntry (db : DB) (fs : ContentStore) (e : JobEntry) : WorkOut :=
  let r := processJob db fs e.job_id e.options e.nonce
  match r.err with
  | none => { db := r.db, fs := r.fs, events := r.events }
  | some msg =>
    let db := (update_job r.db e.job_id (some "failed") none none none (some msg) none).1
    { db := db, fs := r.fs,
      events := r.events ++ [emitEv e.job_id "error" 0 ("Build failed: " ++ msg)] }

/-- The single-consumer FIFO loop: entries processed strictly in order, one at a time. -/
def runQueue (db : DB) (fs : ContentStore) : List JobEntry → WorkOut
  | [] => { db := db, fs := fs, events := [] }
  | e :: rest =>
    let r := runJobEntry db fs e
    let r2 := runQueue r.db r.fs rest
    { db := r2.db, fs := r2.fs, events := r.events ++ r2.events }

/-! ## Realtime hub handlers (`ugc_backend/app.py`) -/

/-- Outbound websocket messages relevant to the verified claims. -/
inductive OutMsg where
  | errorMsg (message : String)
  | worldJoined (world_id : String) (world : Option WorldRow)
  | syncOps (ops : List (String × String))
  | syncComplete (message : String)
  | worldLeft (left_world_id : Option String)
deriving DecidableEq

/-- Hub-side connection state: the database, the `client_worlds` dict and the
`connected_clients` set (connections identified by strings). -/
structure ServerState where
  db : DB
  client_worlds : List (String × String)
  connected_clients : List String
deriving DecidableEq

def lookupClientWorld (st : ServerState) (conn : String) : Option String :=
  (st.client_worlds.find? (fun e => e.1 == conn)).map (fun e => e.2)

def setClientWorld (cw : List (String × String)) (conn world_id : String) :
    List (String × String) :=
  (conn, world_id) :: cw.filter (fun e => !(e.1 == conn))

def popClientWorld (cw : List (String × String)) (conn : String) : List (String × String) :=
  cw.filter (fun e => !(e.1 == conn))

/-- `handle_join_world`: validate, leave the current room, join, replay the op log. -/
def handle_join_world (st : ServerState) (conn : String) (world_id? : Option String) :
    ServerState × List OutMsg :=
  match world_id? with
  | none => (st, [.errorMsg "world_id is required"])
  | some world_id =>
    if world_id == "" then (st, [.errorMsg "world_id is required"])
    else
      match get_world st.db world_id with
      | none => (st, [.errorMsg ("World " ++ world_id ++ " not found")])
      | some _ =>
        let db := match lookupClientWorld st conn with
          | some current => (update_world_player_count st.db current (-1)).1
          | none => st.db
        let cw := setClientWorld st.client_worlds conn world_id
        let db := (update_world_player_count db world_id 1).1
        let st := { st with db := db, client_worlds := cw }
        let joinedMsg := OutMsg.worldJoined world_id (get_world db world_id)
        let ops := get_world_ops db world_id
        if ops.isEmpty then (st, [joinedMsg, .syncComplete "World is empty"])
        else (st, [joinedMsg, .syncOps (ops.map (fun o => (o.op_type, o.op_data)))])

/-- `handle_leave_world`. -/
def handle_leave_world (st : ServerState) (conn : String) : ServerState × List OutMsg :=
  match lookupClientWorld st conn with
  | some world_id =>
    let st := { st with client_worlds := popClientWorld st.client_worlds conn }
    ({ st with db := (update_world_player_count st.db world_id (-1)).1 },
     [.worldLeft (some world_id)])
  | none =>
    ({ st with client_worlds := popClientWorld st.client_worlds conn }, [.worldLeft none])

/-- The `finally:` block of `handle_client`: leave the room and drop the connection. -/
def clientDisconnect (st : ServerState) (conn : String) : ServerState :=
  let st :=
    match lookupClientWorld st conn with
    | some world_id =>
      let st := { st with client_worlds := popClientWorld st.client_worlds conn }
      { st with db := (update_world_player_count st.db world_id (-1)).1 }
    | none => { st with client_worlds := popClientWorld st.client_worlds conn }
  { st with connected_clients := st.connected_clients.filter (fun c => !(c == conn)) }

/-- Room-membership events issued on one hub. -/
inductive HubEvent where
  | join (conn : String) (world_id : Option String)
  | leave (conn : String)
  | disconnect (conn : String)
deriving DecidableEq

def stepEvent (st : ServerState) : HubEvent → ServerState
  | .join conn w => (handle_join_world st conn w).1
  | .leave conn => (handle_leave_world st conn).1
  | .disconnect conn => clientDisconnect st conn

/-! ## Sessions and game-server supervisor (`server_python/app.py`)

The control plane's own `database.py` is not part of the sources; its world
operations coincide with the `ugc_backend/database.py` metadata store embedded
above, which the endpoints below reuse. -/

structure Session where
  session_token : String
  client_id : String
  username : String
  created_at : Nat
  expires_at : Nat
deriving DecidableEq

abbrev SessionStore := List (String × Session)

def SESSION_EXPIRY_SECONDS : Nat := 4 * 60 * 60

/-- Python `s[-n:]`. -/
def strTakeRight (s : String) (n : Nat) : String := ⟨s.data.drop (s.data.length - n)⟩

/-- `create_session` (the random token and client-id fragment are parameters). -/
def create_session (store : SessionStore) (username : String) (now : Nat)
    (token clientNonce : String) : SessionStore × Session :=
  let client_id := "client_" ++ clientNonce
  let session : Session :=
    { session_token := token, client_id := client_id,
      username := if username == "" then "Player_" ++ strTakeRight client_id 6 else username,
      created_at := now, expires_at := now + SESSION_EXPIRY_SECONDS }
  ((token, session) :: store.filter (fun e => !(e.1 == token)), session)

def lookupSession (store : SessionStore) (token : String) : Option Session :=
  (store.find? (fun e => e.1 == token)).map (fun e => e.2)

/-- `validate_session`: lookup, lazily evicting an expired session. -/
def validate_session (store : SessionStore) (token : String) (now : Nat) :
    SessionStore × Option Session :=
  match lookupSession store token with
  | none => (store, none)
  | some session =>
    if session.expires_at < now then (store.filter (fun e => !(e.1 == token)), none)
    else (store, some session)

/-- Fold a sequence of `validate_session` calls over the store. -/
def runValidates (store : SessionStore) : List (String × Nat) → SessionStore
  | [] => store
  | c :: rest => runValidates (validate_session store c.1 c.2).1 rest

/-- Cached per-world server info; the subprocess handle is abstracted to the
observation `alive` (`process.poll() is None`). -/
structure GameServerHandle where
  world_id : String
  host : String
  port : Nat
  address : String
  alive : Bool
deriving DecidableEq

abbrev RunningServers := List (String × GameServerHandle)

def is_server_alive (h : GameServerHandle) : Bool := h.alive

/-- Ports used by live entries of the (already pruned) `running_servers` map. -/
def usedPorts (rs : RunningServers) : List Nat :=
  (rs.filter (fun e => is_server_alive e.2)).map (fun e => e.2.port)

/-- `_find_available_port` (range `[7777, 7877)`): prune dead entries, then pick the
first port not claimed by a live server.  Returns the pruned map and the suggestion. -/
def find_available_port (rs : RunningServers) : RunningServers × Option Nat :=
  let pruned := rs.filter (fun e => is_server_alive e.2)
  (pruned, (List.range' 7777 100).find? (fun p => !((usedPorts pruned).contains p)))

/-- Outcome of the bounded wait for the readiness marker. -/
inductive WaitOutcome where
  | ready
  | timedOutAlive
  | timedOutExited
deriving DecidableEq

/-- Outcome of the TCP-connect probe loop. -/
inductive ProbeOutcome where
  | connected
  | processDied
  | timedOut
deriving DecidableEq

/-- Observable behaviour of the spawned external process. -/
structure ProcBehavior where
  spawnOk : Bool
  reportedPort : Option Nat
  waitOutcome : WaitOutcome
  probeOutcome : ProbeOutcome
deriving DecidableEq

/-- `_start_game_server`: port suggestion, spawn, readiness wait, port override,
probe; `none` on any failure.  The pruned `running_servers` map is threaded through. -/
def start_game_server (rs : RunningServers) (world_id : String) (b : ProcBehavior) :
    RunningServers × Option GameServerHandle :=
  let pr := find_available_port rs
  match pr.2 with
  | none => (pr.1, none)
  | some base_port =>
    if !b.spawnOk then (pr.1, none)
    else
      match b.waitOutcome with
      | .timedOutExited => (pr.1, none)
      | _ =>
        let actual_port := b.reportedPort.getD base_port
        match b.probeOutcome with
        | .connected =>
          (pr.1, some ⟨world_id, "127.0.0.1", actual_port,
            "ws://127.0.0.1:" ++ toString actual_port, true⟩)
        | _ => (pr.1, none)

/-- `get_or_start_game_server`: reuse a live cached handle, else pop the dead entry
and launch, caching the handle only on success. -/
def get_or_start_game_server (rs : RunningServers) (world_id : String) (b : ProcBehavior) :
    RunningServers × Option GameServerHandle :=
  match rs.find? (fun e => e.1 == world_id) with
  | some e =>
    if is_server_alive e.2 then (rs, some e.2)
    else
      let rs := rs.filter (fun x => !(x.1 == world_id))
      let r := start_game_server rs world_id b
      match r.2 with
      | some h => ((world_id, h) :: r.1.filter (fun x => !(x.1 == world_id)), some h)
      | none => (r.1, none)
  | none =>
    let r := start_game_server rs world_id b
    match r.2 with
    | some h => ((world_id, h) :: r.1.filter (fun x => !(x.1 == world_id)), some h)
    | none => (r.1, none)

/-- HTTP result of the `/join` endpoint. -/
inductive JoinResult where
  | unauthorized
  | notFound (world_id : String)
  | serverError (message : String)
  | ok (server_address world_id : String)
deriving DecidableEq

structure JoinOut where
  sessions : SessionStore
  db : DB
  servers : RunningServers
  result : JoinResult

/-- The `/join` endpoint: bearer auth, world resolution, then `get_or_start_game_server`;
a `None` server info is surfaced as the 503 error. -/
def join_endpoint (sessions : SessionStore) (db : DB) (rs : RunningServers)
    (auth : Option String) (now : Nat) (world_id? : Option String) (worldNonce : String)
    (b : ProcBehavior) : JoinOut :=
  match auth with
  | none => ⟨sessions, db, rs, .unauthorized⟩
  | some token =>
    let vr := validate_session sessions token now
    match vr.2 with
    | none => ⟨vr.1, db, rs, .unauthorized⟩
    | some _ =>
      let wr : DB × String × Bool :=
        match world_id? with
        | none =>
          let cw := create_world db "New World" (some "") none worldNonce
          (cw.1, cw.2, true)
        | some wid => (db, wid, world_exists db wid)
      match wr with
      | (db1, wid, ok) =>
        if !ok then ⟨vr.1, db1, rs, .notFound wid⟩
        else
          let gr := get_or_start_game_server rs wid b
          match gr.2 with
          | none => ⟨vr.1, db1, gr.1, .serverError "Failed to start game server"⟩
          | some h => ⟨vr.1, db1, gr.1, .ok h.address wid⟩

/-- HTTP result of `/api/spells/<spell_id>/publish`. -/
inductive PublishResult where
  | unauthorized
  | badRequest (message : String)
  | notFound (message : String)
  | ok (spell_id revision_id channel : String) (manifest : Option Manifest)
deriving DecidableEq

structure PublishOut where
  sessions : SessionStore
  db : DB
  result : PublishResult

/-- `api_publish_spell`: the client-supplied channel is forwarded to
`update_spell_active_revision` without validation at the endpoint. -/
def api_publish_spell (sessions : SessionStore) (db : DB) (fs : ContentStore)
    (spell_id : String) (auth : Option String) (now : Nat)
    (revision_id? channel? : Option String) : PublishOut :=
  match auth with
  | none => ⟨sessions, db, .unauthorized⟩
  | some token =>
    let vr := validate_session sessions token now
    match vr.2 with
    | none => ⟨vr.1, db, .unauthorized⟩
    | some _ =>
      let channel := channel?.getD "beta"
      match revision_id? with
      | none => ⟨vr.1, db, .badRequest "revision_id required"⟩
      | some revision_id =>
        if revision_id == "" then ⟨vr.1, db, .badRequest "revision_id required"⟩
        else if !(revision_exists fs spell_id revision_id) then
          ⟨vr.1, db, .notFound "Revision not found"⟩
        else
          let ur := update_spell_active_revision db spell_id channel revision_id
          ⟨vr.1, ur.1, .ok spell_id revision_id channel (read_manifest fs spell_id revision_id)⟩
/-! ## Basic facts about the database operations -/

theorem update_job_fst_revisions (db : DB) (jid : String) (a b : Option String) (c : Option Nat)
    (d e f : Option String) : ((update_job db jid a b c d e f).1).revisions = db.revisions := rfl

theorem update_job_fst_spells (db : DB) (jid : String) (a b : Option String) (c : Option Nat)
    (d e f : Option String) : ((update_job db jid a b c d e f).1).spells = db.spells := rfl

theorem get_next_version_update_job (db : DB) (jid : String) (a b : Option String)
    (c : Option Nat) (d e f : Option String) (s : String) :
    get_next_version (update_job db jid a b c d e f).1 s = get_next_version db s := rfl

theorem create_revision_jobs (db : DB) (rid sid : String) (m : Manifest) (ch : String) (v : Nat)
    (p : Option String) : (create_revision db rid sid m ch v p).jobs = db.jobs := rfl

theorem create_revision_spells (db : DB) (rid sid : String) (m : Manifest) (ch : String) (v : Nat)
    (p : Option String) : (create_revision db rid sid m ch v p).spells = db.spells := rfl

theorem create_revision_revisions (db : DB) (rid sid : String) (m : Manifest) (ch : String)
    (v : Nat) (p : Option String) :
    (create_revision db rid sid m ch v p).revisions =
      db.revisions ++ [⟨rid, sid, p, ch, v, m⟩] := rfl

theorem usar_fst_revisions (db : DB) (sid ch rid : String) :
    ((update_spell_active_revision db sid ch rid).1).revisions = db.revisions := by
  unfold update_spell_active_revision
  dsimp only []
  split <;> rfl

theorem usar_fst_jobs (db : DB) (sid ch rid : String) :
    ((update_spell_active_revision db sid ch rid).1).jobs = db.jobs := by
  unfold update_spell_active_revision
  dsimp only []
  split <;> rfl

theorem get_next_version_usar (db : DB) (sid ch rid : String) (s : String) :
    get_next_version (update_spell_active_revision db sid ch rid).1 s = get_next_version db s := by
  unfold get_next_version
  rw [usar_fst_revisions]

theorem get_next_version_create_revision (db : DB) (rid sid : String) (m : Manifest) (ch : String)
    (v : Nat) (p : Option String) (s : String) :
    get_next_version (create_revision db rid sid m ch v p) s =
      get_next_version { db with revisions := db.revisions ++ [(⟨rid, sid, p, ch, v, m⟩ : RevisionRow)] } s := rfl

/-- `find?` commutes with a map that does not change the tested key. -/
theorem find?_map_pres {α : Type} (l : List α) (g : α → α) (p : α → Bool)
    (hp : ∀ x, p (g x) = p x) : (l.map g).find? p = (l.find? p).map g := by
  induction l with
  | nil => rfl
  | cons x xs ih =>
    rw [List.map_cons, List.find?_cons, List.find?_cons, hp x]
    cases p x <;> simp [ih]

theorem patchJob_job_id (j : JobRow) (a b : Option String) (c : Option Nat)
    (d e f : Option String) : (patchJob j a b c d e f).job_id = j.job_id := rfl

theorem patchJob_spell_id (j : JobRow) (a b : Option String) (c : Option Nat)
    (d e f : Option String) : (patchJob j a b c d e f).spell_id = j.spell_id := rfl

theorem get_job_update_job (db : DB) (jid : String) (a b : Option String) (c : Option Nat)
    (d e f : Option String) (jj : String) :
    get_job (update_job db jid a b c d e f).1 jj =
      (get_job db jj).map
        (fun r => if r.job_id == jid then patchJob r a b c d e f else r) := by
  unfold get_job update_job
  exact find?_map_pres db.jobs _ _ (fun x => by

    by_cases hx : (x.job_id == jid) = true <;> simp [hx, patchJob_job_id])

/-- The `spell_id` view of `get_job` is invariant under `update_job`. -/
theorem gjs_update_job (db : DB) (jid : String) (a b : Option String) (c : Option Nat)
    (d e f : Option String) (jj : String) :
    (get_job (update_job db jid a b c d e f).1 jj).map (fun r => r.spell_id) =
      (get_job db jj).map (fun r => r.spell_id) := by
  rw [get_job_update_job]
  cases get_job db jj with
  | none => rfl
  | some r =>
    by_cases hr : r.job_id = jid
    · simp [hr, patchJob_spell_id]
    · simp [hr]

theorem gjs_create_revision (db : DB) (rid sid : String) (m : Manifest) (ch : String) (v : Nat)
    (p : Option String) (jj : String) :
    get_job (create_revision db rid sid m ch v p) jj = get_job db jj := rfl

theorem gjs_usar (db : DB) (sid ch rid : String) (jj : String) :
    get_job (update_spell_active_revision db sid ch rid).1 jj = get_job db jj := by
  unfold get_job
  rw [usar_fst_jobs]

/-- Appending a fresh revision at the allocated version bumps `get_next_version` by one. -/
theorem get_next_version_append (db : DB) (row : RevisionRow) (s : String)
    (hs : row.spell_id = s) (hv : row.version = get_next_version db s) :
    get_next_version { db with revisions := db.revisions ++ [row] } s =
      get_next_version db s + 1 := by
  have hfold : ∀ (xs : List Nat) (v : Nat), xs.foldr max (0 : Nat) ≤ v →
      (xs ++ [v]).foldr max 0 = v := by
    intro xs v hle
    induction xs with
    | nil => simp
    | cons x xs ih =>
      simp only [List.cons_append, List.foldr_cons] at *
      omega
  unfold get_next_version at hv ⊢
  rw [List.filter_append,
    show List.filter (fun r => r.spell_id == s) [row] = [row] by simp [hs],
    List.map_append]
  simp only [List.map_cons, List.map_nil]
  rw [hfold _ _ (by omega)]
  omega

/-! ## Read-after-write facts for the content store -/

theorem joinPath_inj (d a b : String) (ha : isAbsPath a = false) (hb : isAbsPath b = false)
    (h : joinPath d a = joinPath d b) : a = b := by
  rw [joinPath, joinPath, if_neg (by simp [ha]), if_neg (by simp [hb])] at h
  have hd := congrArg String.data h
  simp only [String.data_append] at hd
  rw [List.append_assoc, List.append_assoc] at hd
  have h2 := List.append_cancel_left (List.append_cancel_left hd)
  exact congrArg String.mk h2

theorem iconPath_ne_codePath (d : String) :
    (joinPath d "assets/icon.png" == joinPath d "code/spell.gd") = false := by
  rw [beq_eq_false_iff_ne]
  intro h
  have := joinPath_inj d "assets/icon.png" "code/spell.gd" (by decide) (by decide) h
  exact absurd this (by decide)

theorem create_revision_directory_files (fs : ContentStore) (sid rid : String) :
    (create_revision_directory fs sid rid).files = fs.files := rfl

/-- Reading the code entry back after the code and icon writes of the assemble stage. -/
theorem read_write_write (fs : ContentStore) (sid rid : String) (codeBytes iconBytes : List Nat) :
    read_revision_file
      ((write_revision_file
        ((write_revision_file (create_revision_directory fs sid rid)
          sid rid "code/spell.gd" codeBytes).1)
        sid rid "assets/icon.png" iconBytes).1)
      sid rid "code/spell.gd" = some codeBytes := by
  unfold read_revision_file write_revision_file
  rw [create_revision_directory_files]
  rw [List.find?_cons, List.find?_cons]
  rw [iconPath_ne_codePath (get_revision_dir sid rid), beq_self_eq_true]
  rfl

/-! ## Stage-level facts about the build pipeline -/

theorem stage_prepare_db (db : DB) (jid : String) :
    (stage_prepare db jid).db =
      (update_job (update_job db jid none (some "prepare") (some 5) none none none).1
        jid none none (some 15) none none none).1 := rfl

theorem stage_prepare_events (db : DB) (jid : String) :
    (stage_prepare db jid).events =
      [emitEv jid "prepare" 5 "Preparing build environment...",
       emitEv jid "prepare" 15 "Build environment ready"] := rfl

theorem stage_assemble_db (db : DB) (fs : ContentStore) (jid sid : String) (o : BuildOptions)
    (n : String) :
    (stage_assemble db fs jid sid o n).db =
      (update_job (update_job (update_job (update_job db jid none (some "assemble_package")
        (some 20) none none none).1 jid none none (some 30) none none none).1
        jid none none (some 45) none none none).1 jid none none (some 55) none none none).1 := by
  unfold stage_assemble
  cases o.icon_data <;> rfl

theorem stage_assemble_revision_id (db : DB) (fs : ContentStore) (jid sid : String)
    (o : BuildOptions) (n : String) :
    (stage_assemble db fs jid sid o n).revision_id =
      mkRevisionId (get_next_version db sid) n := by
  unfold stage_assemble
  cases o.icon_data <;> rfl

theorem stage_assemble_events (db : DB) (fs : ContentStore) (jid sid : String) (o : BuildOptions)
    (n : String) :
    (stage_assemble db fs jid sid o n).events =
      [emitEv jid "assemble_package" 20 "Assembling package files...",
       emitEv jid "assemble_package" 30
         ("Created revision " ++ (stage_assemble db fs jid sid o n).revision_id),
       emitEv jid "assemble_package" 45 "Wrote spell script",
       emitEv jid "assemble_package" 55 "Wrote asset files"] := by
  unfold stage_assemble
  cases o.icon_data <;> rfl

/-- The validate stage re-reads exactly the bytes the assemble stage wrote. -/
theorem stage_assemble_read (db : DB) (fs : ContentStore) (jid sid : String) (o : BuildOptions)
    (n : String) :
    read_revision_file (stage_assemble db fs jid sid o n).fs sid
      (stage_assemble db fs jid sid o n).revision_id "code/spell.gd" =
      some (utf8Encode (o.code.getD (generate_stub_spell sid))) := by
  unfold stage_assemble
  cases o.icon_data with
  | none => exact read_write_write _ _ _ _ _
  | some t => exact read_write_write _ _ _ _ _

/-- Successful validation: the script is present, nonempty and has the handler. -/
theorem stage_validate_success (db : DB) (fs : ContentStore) (jid sid rid : String)
    (content : String)
    (hread : read_revision_file fs sid rid "code/spell.gd" = some (utf8Encode content))
    (hvalid : hasSubstr "func on_cast" content = true) :
    stage_validate db fs jid sid rid =
      { db := (update_job (update_job db jid none (some "validate") (some 60) none none none).1
          jid none none (some 75) none none none).1,
        events := [emitEv jid "validate" 60 "Validating spell interface...",
          emitEv jid "validate" 75 "Validation passed"],
        err := none } := by
  have hdata : content.data ≠ [] := hasSubstr_data_ne_nil (by decide) hvalid
  have hne : ¬((utf8Encode content).isEmpty = true) := by
    intro hemp
    exact hdata ((utf8Encode_eq_nil_iff content).mp (List.isEmpty_iff.mp hemp))
  unfold stage_validate
  rw [hread]
  dsimp only []
  rw [if_neg hne, utf8Decode_encode]
  simp only [List.filter_cons, List.filter_nil,
    show ("func " ++ "on_cast" : String) = "func on_cast" from rfl, hvalid, Bool.not_true,
    Bool.false_eq_true, if_false, List.isEmpty_nil, if_true]

/-- Failed validation: script present but missing the `on_cast` handler (or empty). -/
theorem stage_validate_failure (db : DB) (fs : ContentStore) (jid sid rid : String)
    (content : String)
    (hread : read_revision_file fs sid rid "code/spell.gd" = some (utf8Encode content))
    (hinvalid : hasSubstr "func on_cast" content = false) :
    ∃ msg, stage_validate db fs jid sid rid =
      { db := (update_job db jid none (some "validate") (some 60) none none none).1,
        events := [emitEv jid "validate" 60 "Validating spell interface..."],
        err := some msg } ∧
      (content ≠ "" → msg = "Missing required methods: on_cast") := by
  by_cases hc : content = ""
  · refine ⟨"Spell script not found", ?_, by intro h; exact absurd hc h⟩
    have hemp : (utf8Encode content).isEmpty = true := by
      subst hc
      rfl
    unfold stage_validate
    rw [hread]
    dsimp only []
    rw [if_pos hemp]
  · refine ⟨"Missing required methods: on_cast", ?_, fun _ => rfl⟩
    have hdata : content.data ≠ [] := by
      intro h
      exact hc (congrArg String.mk h)
    have hne : ¬((utf8Encode content).isEmpty = true) := by
      intro hemp
      exact hdata ((utf8Encode_eq_nil_iff content).mp (List.isEmpty_iff.mp hemp))
    unfold stage_validate
    rw [hread]
    dsimp only []
    rw [if_neg hne, utf8Decode_encode]
    simp only [List.filter_cons, List.filter_nil,
      show ("func " ++ "on_cast" : String) = "func on_cast" from rfl, hinvalid, Bool.not_false,
      if_true, List.isEmpty_cons, if_false]
    have : ("Missing required methods: " ++ String.intercalate ", " ["on_cast"] : String) =
        "Missing required methods: on_cast" := by decide
    rw [this]
    simp

/-- `spell_id` views of `get_job` through every stage. -/
theorem gjs_stage_prepare (db : DB) (jid jj : String) :
    (get_job (stage_prepare db jid).db jj).map (fun r => r.spell_id) =
      (get_job db jj).map (fun r => r.spell_id) := by
  rw [stage_prepare_db, gjs_update_job, gjs_update_job]

theorem gjs_stage_assemble (db : DB) (fs : ContentStore) (jid sid : String) (o : BuildOptions)
    (n : String) (jj : String) :
    (get_job (stage_assemble db fs jid sid o n).db jj).map (fun r => r.spell_id) =
      (get_job db jj).map (fun r => r.spell_id) := by
  rw [stage_assemble_db, gjs_update_job, gjs_update_job, gjs_update_job, gjs_update_job]

theorem gjs_stage_validate (db : DB) (fs : ContentStore) (jid sid rid : String) (jj : String) :
    (get_job (stage_validate db fs jid sid rid).db jj).map (fun r => r.spell_id) =
      (get_job db jj).map (fun r => r.spell_id) := by
  unfold stage_validate
  dsimp only []
  split
  · simp [gjs_update_job]
  · split
    · simp [gjs_update_job]
    · split <;> simp [gjs_update_job]

theorem stage_finalize_db (db : DB) (fs : ContentStore) (jid sid rid : String)
    (cf af : List FileInfo) (o : BuildOptions) :
    (stage_finalize db fs jid sid rid cf af o).db =
      (update_job (update_spell_active_revision
        (create_revision (update_job (update_job db jid none (some "finalize") (some 80)
            none none none).1 jid none none (some 90) none none none).1
          rid sid
          (create_manifest sid rid
            (get_next_version (update_job db jid none (some "finalize") (some 80)
              none none none).1 sid)
            "code/spell.gd" (some (mergeMetadata sid o)) (some cf) (some af))
          "draft"
          (get_next_version (update_job db jid none (some "finalize") (some 80)
            none none none).1 sid)
          o.parent_revision_id)
        sid "draft" rid).1 jid none none (some 95) none none none).1 := rfl

theorem gjs_stage_finalize (db : DB) (fs : ContentStore) (jid sid rid : String)
    (cf af : List FileInfo) (o : BuildOptions) (jj : String) :
    (get_job (stage_finalize db fs jid sid rid cf af o).db jj).map (fun r => r.spell_id) =
      (get_job db jj).map (fun r => r.spell_id) := by
  rw [stage_finalize_db, gjs_update_job, gjs_usar, gjs_create_revision, gjs_update_job,
    gjs_update_job]

theorem processJob_gjs (db : DB) (fs : ContentStore) (jid : String) (o : BuildOptions)
    (n : String) (jj : String) :
    (get_job (processJob db fs jid o n).db jj).map (fun r => r.spell_id) =
      (get_job db jj).map (fun r => r.spell_id) := by
  unfold processJob
  cases hj : get_job db jid with
  | none => rfl
  | some j =>
    dsimp only []
    split
    · rw [gjs_stage_validate, gjs_stage_assemble, gjs_stage_prepare, gjs_update_job]
    · rw [gjs_update_job, gjs_stage_finalize, gjs_stage_validate, gjs_stage_assemble,
        gjs_stage_prepare, gjs_update_job]

theorem runJobEntry_gjs (db : DB) (fs : ContentStore) (e : JobEntry) (jj : String) :
    (get_job (runJobEntry db fs e).db jj).map (fun r => r.spell_id) =
      (get_job db jj).map (fun r => r.spell_id) := by
  unfold runJobEntry
  dsimp only []
  split
  · rw [processJob_gjs]
  · rw [gjs_update_job, processJob_gjs]

/-! ## End-to-end facts about one pipeline run -/

/-- The `(stage, pct)` checkpoints of a successful build, in emission order. -/
def successCheckpoints : List (String × Nat) :=
  [("prepare", 0), ("prepare", 5), ("prepare", 15),
   ("assemble_package", 20), ("assemble_package", 30), ("assemble_package", 45),
   ("assemble_package", 55), ("validate", 60), ("validate", 75),
   ("finalize", 80), ("finalize", 90), ("finalize", 95), ("done", 100)]

theorem stage_finalize_events (db : DB) (fs : ContentStore) (jid sid rid : String)
    (cf af : List FileInfo) (o : BuildOptions) :
    (stage_finalize db fs jid sid rid cf af o).events.map (fun ev => (ev.stage, ev.pct)) =
      [("finalize", 80), ("finalize", 90), ("finalize", 95)] := rfl

theorem rev_stage_prepare (db : DB) (jid : String) :
    (stage_prepare db jid).db.revisions = db.revisions := rfl

theorem rev_stage_assemble (db : DB) (fs : ContentStore) (jid sid : String) (o : BuildOptions)
    (n : String) : (stage_assemble db fs jid sid o n).db.revisions = db.revisions := by
  rw [stage_assemble_db, update_job_fst_revisions, update_job_fst_revisions,
    update_job_fst_revisions, update_job_fst_revisions]

theorem spells_stage_prepare (db : DB) (jid : String) :
    (stage_prepare db jid).db.spells = db.spells := rfl

theorem spells_stage_assemble (db : DB) (fs : ContentStore) (jid sid : String) (o : BuildOptions)
    (n : String) : (stage_assemble db fs jid sid o n).db.spells = db.spells := by
  rw [stage_assemble_db, update_job_fst_spells, update_job_fst_spells,
    update_job_fst_spells, update_job_fst_spells]

theorem gnv_stage_prepare (db : DB) (jid s : String) :
    get_next_version (stage_prepare db jid).db s = get_next_version db s := rfl

theorem gnv_stage_assemble (db : DB) (fs : ContentStore) (jid sid : String) (o : BuildOptions)
    (n s : String) :
    get_next_version (stage_assemble db fs jid sid o n).db s = get_next_version db s := by
  unfold get_next_version
  rw [rev_stage_assemble]

/-- A successful run of `_process_job`: no exception, the thirteen fixed progress
checkpoints, and exactly one appended revision row whose recorded (finalize-stage)
version is the assemble-stage allocation `get_next_version` of the starting state. -/
theorem processJob_success (db : DB) (fs : ContentStore) (jid : String) (o : BuildOptions)
    (n : String) (j : JobRow) (hj : get_job db jid = some j)
    (hvalid : hasSubstr "func on_cast" (o.code.getD (generate_stub_spell j.spell_id)) = true) :
    (processJob db fs jid o n).err = none ∧
    ((processJob db fs jid o n).events.map (fun ev => (ev.stage, ev.pct)) = successCheckpoints) ∧
    ∃ m, (processJob db fs jid o n).db.revisions = db.revisions ++
      [⟨mkRevisionId (get_next_version db j.spell_id) n, j.spell_id, o.parent_revision_id,
        "draft", get_next_version db j.spell_id, m⟩] := by
  unfold processJob
  rw [hj]
  dsimp only []
  rw [stage_validate_success _ _ jid j.spell_id _ (o.code.getD (generate_stub_spell j.spell_id))
    (stage_assemble_read _ fs jid j.spell_id o n) hvalid]
  dsimp only []
  refine ⟨rfl, ?_, ?_⟩
  · rw [stage_prepare_events, stage_assemble_events]
    simp [successCheckpoints, emitEv, stage_finalize_events]
  · rw [update_job_fst_revisions, stage_finalize_db, update_job_fst_revisions,
      usar_fst_revisions, create_revision_revisions, update_job_fst_revisions,
      update_job_fst_revisions, update_job_fst_revisions, update_job_fst_revisions,
      rev_stage_assemble, rev_stage_prepare, update_job_fst_revisions]
    simp only [stage_assemble_revision_id, get_next_version_update_job, gnv_stage_assemble,
      gnv_stage_prepare]
    exact ⟨_, rfl⟩

theorem get_job_id (db : DB) (jid : String) (r : JobRow) (h : get_job db jid = some r) :
    r.job_id = jid := by
  unfold get_job at h
  have hp := List.find?_some h
  exact eq_of_beq hp

/-- A failing run of `_process_job` on a script without the required handler: the
`ValueError` escapes, and neither the revisions table nor the spells table changes. -/
theorem processJob_invalid (db : DB) (fs : ContentStore) (jid : String) (o : BuildOptions)
    (n : String) (j : JobRow) (script : String)
    (hj : get_job db jid = some j)
    (hcode : o.code = some script)
    (hinvalid : hasSubstr "func on_cast" script = false) :
    ∃ msg,
      (processJob db fs jid o n).err = some msg ∧
      (script ≠ "" → msg = "Missing required methods: on_cast") ∧
      (processJob db fs jid o n).db.revisions = db.revisions ∧
      (processJob db fs jid o n).db.spells = db.spells := by
  have hread := stage_assemble_read
    (stage_prepare (update_job db jid (some "running") (some "prepare") (some 0)
      none none none).1 jid).db fs jid j.spell_id o n
  rw [hcode] at hread
  simp only [Option.getD_some] at hread
  obtain ⟨msg, heq, himp⟩ := stage_validate_failure _ _ jid j.spell_id _ script hread hinvalid
  refine ⟨msg, ?_, himp, ?_, ?_⟩
  · unfold processJob
    rw [hj]
    dsimp only []
    rw [heq]
  · unfold processJob
    rw [hj]
    dsimp only []
    rw [heq]
    dsimp only []
    rw [update_job_fst_revisions, rev_stage_assemble, rev_stage_prepare,
      update_job_fst_revisions]
  · unfold processJob
    rw [hj]
    dsimp only []
    rw [heq]
    dsimp only []
    rw [update_job_fst_spells, spells_stage_assemble, spells_stage_prepare,
      update_job_fst_spells]

/-- A successful `_run_loop` iteration forwards the pipeline's events and appends the
one new revision row. -/
theorem runJobEntry_success (db : DB) (fs : ContentStore) (e : JobEntry) (j : JobRow)
    (hj : get_job db e.job_id = some j)
    (hvalid : hasSubstr "func on_cast"
      (e.options.code.getD (generate_stub_spell j.spell_id)) = true) :
    ((runJobEntry db fs e).events.map (fun ev => (ev.stage, ev.pct)) = successCheckpoints) ∧
    ∃ m, (runJobEntry db fs e).db.revisions = db.revisions ++
      [⟨mkRevisionId (get_next_version db j.spell_id) e.nonce, j.spell_id,
        e.options.parent_revision_id, "draft", get_next_version db j.spell_id, m⟩] := by
  obtain ⟨h1, h2, m, h3⟩ := processJob_success db fs e.job_id e.options e.nonce j hj hvalid
  unfold runJobEntry
  dsimp only []
  rw [h1]
  exact ⟨h2, m, h3⟩

/-- A failing `_run_loop` iteration: the job row is marked failed with the error text,
the terminal `error`/pct-0 event is last, and revisions and spells are untouched. -/
theorem runJobEntry_invalid (db : DB) (fs : ContentStore) (e : JobEntry) (j : JobRow)
    (script : String)
    (hj : get_job db e.job_id = some j)
    (hcode : e.options.code = some script)
    (hinvalid : hasSubstr "func on_cast" script = false) :
    ∃ msg,
      (script ≠ "" → msg = "Missing required methods: on_cast") ∧
      (runJobEntry db fs e).db.revisions = db.revisions ∧
      (runJobEntry db fs e).db.spells = db.spells ∧
      (∃ row, get_job (runJobEntry db fs e).db e.job_id = some row ∧
        row.status = "failed" ∧ row.error_message = some msg ∧ row.spell_id = j.spell_id) ∧
      (runJobEntry db fs e).events.getLast? =
        some (emitEv e.job_id "error" 0 ("Build failed: " ++ msg)) := by
  obtain ⟨msg, h1, himp, h3, h4⟩ :=
    processJob_invalid db fs e.job_id e.options e.nonce j script hj hcode hinvalid
  have hpres := processJob_gjs db fs e.job_id e.options e.nonce e.job_id
  rw [hj] at hpres
  cases hq : get_job (processJob db fs e.job_id e.options e.nonce).db e.job_id with
  | none =>
    rw [hq] at hpres
    exact absurd hpres (by simp)
  | some j2 =>
    rw [hq] at hpres
    have hj2s : j2.spell_id = j.spell_id := by
      simpa using hpres
    have hj2id : j2.job_id = e.job_id := get_job_id _ _ _ hq
    refine ⟨msg, himp, ?_, ?_, ?_, ?_⟩
    · unfold runJobEntry
      dsimp only []
      rw [h1]
      dsimp only []
      rw [update_job_fst_revisions, h3]
    · unfold runJobEntry
      dsimp only []
      rw [h1]
      dsimp only []
      rw [update_job_fst_spells, h4]
    · refine ⟨patchJob j2 (some "failed") none none none (some msg) none, ?_, rfl, rfl, hj2s⟩
      unfold runJobEntry
      dsimp only []
      rw [h1]
      dsimp only []
      rw [get_job_update_job, hq]
      simp [hj2id]

    · unfold runJobEntry
      dsimp only []
      rw [h1]
      dsimp only []
      exact List.getLast?_concat _

theorem runQueue_cons (db : DB) (fs : ContentStore) (e : JobEntry) (rest : List JobEntry) :
    runQueue db fs (e :: rest) =
      ⟨(runQueue (runJobEntry db fs e).db (runJobEntry db fs e).fs rest).db,
       (runQueue (runJobEntry db fs e).db (runJobEntry db fs e).fs rest).fs,
       (runJobEntry db fs e).events ++
         (runQueue (runJobEntry db fs e).db (runJobEntry db fs e).fs rest).events⟩ := rfl

theorem gnv_congr (db1 db2 : DB) (h : db1.revisions = db2.revisions) (s : String) :
    get_next_version db1 s = get_next_version db2 s := by
  unfold get_next_version
  rw [h]

/-- C1 (main induction): running a queue of build jobs for one spell, each with a valid
script, appends revision rows whose versions are exactly the consecutive run
`get_next_version db s, +1, +2, ...` — one per queue entry, each carrying the version
inside its `rev_NNNNNN_nonce` identifier allocated at assemble time. -/
theorem runQueue_versions (entries : List JobEntry) (db : DB) (fs : ContentStore) (s : String)
    (hjob : ∀ e ∈ entries, ∃ j, get_job db e.job_id = some j ∧ j.spell_id = s)
    (hvalid : ∀ e ∈ entries,
      hasSubstr "func on_cast" (e.options.code.getD (generate_stub_spell s)) = true) :
    ∃ rows : List RevisionRow,
      (runQueue db fs entries).db.revisions = db.revisions ++ rows ∧
      rows.map (fun r => r.version) = List.range' (get_next_version db s) entries.length ∧
      List.Forall₂ (fun (r : RevisionRow) (e : JobEntry) =>
        r.spell_id = s ∧ r.channel = "draft" ∧
        r.revision_id = mkRevisionId r.version e.nonce) rows entries := by
  induction entries generalizing db fs with
  | nil => exact ⟨[], by simp [runQueue], by simp, List.Forall₂.nil⟩
  | cons e rest ih =>
    obtain ⟨j, hje, hjs⟩ := hjob e (List.mem_cons_self e rest)
    have hv := hvalid e (List.mem_cons_self e rest)
    rw [← hjs] at hv
    obtain ⟨hmap, m, hrev⟩ := runJobEntry_success db fs e j hje hv
    rw [hjs] at hrev
    have hgnv1 : get_next_version (runJobEntry db fs e).db s = get_next_version db s + 1 := by
      have happ := get_next_version_append db
        ⟨mkRevisionId (get_next_version db s) e.nonce, s, e.options.parent_revision_id,
          "draft", get_next_version db s, m⟩ s rfl rfl
      calc get_next_version (runJobEntry db fs e).db s
          = get_next_version { db with revisions := db.revisions ++
              [(⟨mkRevisionId (get_next_version db s) e.nonce, s, e.options.parent_revision_id,
                "draft", get_next_version db s, m⟩ : RevisionRow)] } s :=
            gnv_congr _ _ (by rw [hrev]) s
        _ = get_next_version db s + 1 := happ
    have hjob1 : ∀ e' ∈ rest, ∃ j', get_job (runJobEntry db fs e).db e'.job_id = some j' ∧
        j'.spell_id = s := by
      intro e' he'
      obtain ⟨j', hj', hs'⟩ := hjob e' (List.mem_cons_of_mem _ he')
      have hg := runJobEntry_gjs db fs e e'.job_id
      rw [hj'] at hg
      cases hq : get_job (runJobEntry db fs e).db e'.job_id with
      | none =>
        rw [hq] at hg
        exact absurd hg (by simp)
      | some j2 =>
        rw [hq] at hg
        refine ⟨j2, rfl, ?_⟩
        have : j2.spell_id = j'.spell_id := by simpa using hg
        rw [this, hs']
    obtain ⟨rows', h1, h2, h3⟩ := ih (runJobEntry db fs e).db (runJobEntry db fs e).fs hjob1
      (fun e' he' => hvalid e' (List.mem_cons_of_mem _ he'))
    refine ⟨⟨mkRevisionId (get_next_version db s) e.nonce, s, e.options.parent_revision_id,
      "draft", get_next_version db s, m⟩ :: rows', ?_, ?_, ?_⟩
    · rw [runQueue_cons]
      dsimp only []
      rw [h1, hrev, List.append_assoc]
      rfl
    · rw [List.map_cons, h2, hgnv1, List.length_cons, List.range'_succ]
    · exact List.Forall₂.cons ⟨rfl, rfl, rfl⟩ h3

/-! ## Event-trace facts for the worker loop -/

theorem ne_error_of_stage (st : String) {ev : ProgressEvent} (h : ev.stage = st)
    (hne : (st == "error") = false) : ev.stage ≠ "error" := by
  rw [h]
  intro hc
  rw [hc] at hne
  simp at hne

theorem stage_prepare_events_shape (db : DB) (jid : String) :
    ∀ ev ∈ (stage_prepare db jid).events, ev.job_id = jid ∧ ev.stage ≠ "error" := by
  rw [stage_prepare_events]
  intro ev hev
  simp only [List.mem_cons, List.not_mem_nil, or_false] at hev
  rcases hev with h | h <;> subst h <;>
    exact ⟨rfl, ne_error_of_stage "prepare" rfl (by decide)⟩

theorem stage_assemble_events_shape (db : DB) (fs : ContentStore) (jid sid : String)
    (o : BuildOptions) (n : String) :
    ∀ ev ∈ (stage_assemble db fs jid sid o n).events, ev.job_id = jid ∧ ev.stage ≠ "error" := by
  rw [stage_assemble_events]
  intro ev hev
  simp only [List.mem_cons, List.not_mem_nil, or_false] at hev
  rcases hev with h | h | h | h <;> subst h <;>
    exact ⟨rfl, ne_error_of_stage "assemble_package" rfl (by decide)⟩

theorem stage_validate_events_shape (db : DB) (fs : ContentStore) (jid sid rid : String) :
    ∀ ev ∈ (stage_validate db fs jid sid rid).events, ev.job_id = jid ∧ ev.stage ≠ "error" := by
  unfold stage_validate
  dsimp only []
  split
  · intro ev hev
    simp only [List.mem_cons, List.not_mem_nil, or_false] at hev
    subst hev
    exact ⟨rfl, ne_error_of_stage "validate" rfl (by decide)⟩
  · split
    · intro ev hev
      simp only [List.mem_cons, List.not_mem_nil, or_false] at hev
      subst hev
      exact ⟨rfl, ne_error_of_stage "validate" rfl (by decide)⟩
    · split
      · intro ev hev
        simp only [List.mem_cons, List.not_mem_nil, or_false] at hev
        rcases hev with h | h <;> subst h <;>
          exact ⟨rfl, ne_error_of_stage "validate" rfl (by decide)⟩
      · intro ev hev
        simp only [List.mem_cons, List.not_mem_nil, or_false] at hev
        subst hev
        exact ⟨rfl, ne_error_of_stage "validate" rfl (by decide)⟩

theorem stage_finalize_events_list (db : DB) (fs : ContentStore) (jid sid rid : String)
    (cf af : List FileInfo) (o : BuildOptions) :
    ∃ m3, (stage_finalize db fs jid sid rid cf af o).events =
      [emitEv jid "finalize" 80 "Computing file hashes...",
       emitEv jid "finalize" 90 "Writing manifest...",
       ⟨jid, "finalize", 95, "Manifest written", none, some m3⟩] := ⟨_, rfl⟩

theorem stage_finalize_events_shape (db : DB) (fs : ContentStore) (jid sid rid : String)
    (cf af : List FileInfo) (o : BuildOptions) :
    ∀ ev ∈ (stage_finalize db fs jid sid rid cf af o).events,
      ev.job_id = jid ∧ ev.stage ≠ "error" := by
  obtain ⟨m3, hl⟩ := stage_finalize_events_list db fs jid sid rid cf af o
  rw [hl]
  intro ev hev
  simp only [List.mem_cons, List.not_mem_nil, or_false] at hev
  rcases hev with h | h | h <;> subst h <;>
    exact ⟨rfl, ne_error_of_stage "finalize" rfl (by decide)⟩

/-- Every event emitted inside `_process_job` belongs to the processed job and none of
them carries the terminal `error` stage. -/
theorem processJob_events_shape (db : DB) (fs : ContentStore) (jid : String) (o : BuildOptions)
    (n : String) :
    ∀ ev ∈ (processJob db fs jid o n).events, ev.job_id = jid ∧ ev.stage ≠ "error" := by
  unfold processJob
  cases hj : get_job db jid with
  | none =>
    intro ev hev
    simp at hev
  | some j =>
    dsimp only []
    split
    · intro ev hev
      simp only [List.mem_cons, List.mem_append, or_assoc] at hev
      rcases hev with h | h | h | h
      · subst h
        exact ⟨rfl, ne_error_of_stage "prepare" rfl (by decide)⟩
      · exact stage_prepare_events_shape _ _ ev h
      · exact stage_assemble_events_shape _ _ _ _ _ _ ev h
      · exact stage_validate_events_shape _ _ _ _ _ ev h
    · intro ev hev
      simp only [List.mem_cons, List.mem_append, List.not_mem_nil, or_false, or_assoc] at hev
      rcases hev with h | h | h | h | h | h
      · subst h
        exact ⟨rfl, ne_error_of_stage "prepare" rfl (by decide)⟩
      · exact stage_prepare_events_shape _ _ ev h
      · exact stage_assemble_events_shape _ _ _ _ _ _ ev h
      · exact stage_validate_events_shape _ _ _ _ _ ev h
      · exact stage_finalize_events_shape _ _ _ _ _ _ _ _ ev h
      · subst h
        exact ⟨rfl, ne_error_of_stage "done" rfl (by decide)⟩

theorem runJobEntry_events_jobid (db : DB) (fs : ContentStore) (e : JobEntry) :
    ∀ ev ∈ (runJobEntry db fs e).events, ev.job_id = e.job_id := by
  unfold runJobEntry
  dsimp only []
  split
  · intro ev hev
    exact (processJob_events_shape _ _ _ _ _ ev hev).1
  · intro ev hev
    rcases List.mem_append.mp hev with h | h
    · exact (processJob_events_shape _ _ _ _ _ ev h).1
    · simp only [List.mem_cons, List.not_mem_nil, or_false] at h
      subst h
      rfl

/-- After an event of stage `"error"` for job `jid`, no later event in the list belongs
to `jid`.  This is the shape of §4.4's terminal-failure guarantee. -/
def NoEventsAfterError (jid : String) (evs : List ProgressEvent) : Prop :=
  ∀ pre ev post, evs = pre ++ ev :: post → ev.job_id = jid → ev.stage = "error" →
    ∀ ev2 ∈ post, ev2.job_id ≠ jid

theorem nea_of_no_error (jid : String) (evs : List ProgressEvent)
    (h : ∀ ev ∈ evs, ¬(ev.job_id = jid ∧ ev.stage = "error")) :
    NoEventsAfterError jid evs := by
  intro pre ev post heq hid hst
  have hm : ev ∈ evs := by
    rw [heq]
    exact List.mem_append_right pre (List.mem_cons_self ev post)
  exact absurd ⟨hid, hst⟩ (h ev hm)

theorem nea_singleton (jid : String) (x : ProgressEvent) : NoEventsAfterError jid [x] := by
  intro pre ev post heq hid hst
  have hpost : post = [] := by
    cases pre with
    | nil =>
      simp only [List.nil_append, List.cons.injEq] at heq
      exact heq.2.symm
    | cons a as =>
      simp only [List.cons_append, List.cons.injEq] at heq
      exact absurd heq.2.symm (by simp)
  subst hpost
  intro ev2 h2
  simp at h2

theorem nea_append (jid : String) (A B : List ProgressEvent)
    (hA : NoEventsAfterError jid A) (hB : NoEventsAfterError jid B)
    (hAB : (∃ ev ∈ A, ev.job_id = jid ∧ ev.stage = "error") → ∀ ev ∈ B, ev.job_id ≠ jid) :
    NoEventsAfterError jid (A ++ B) := by
  intro pre ev post heq hid hst
  rcases List.append_eq_append_iff.mp heq with ⟨a', hpre, hB'⟩ | ⟨c', hA', hd⟩
  · exact hB a' ev post hB' hid hst
  · cases c' with
    | nil =>
      simp only [List.nil_append] at hd
      exact hB [] ev post (by rw [← hd]; rfl) hid hst
    | cons x mid =>
      simp only [List.cons_append, List.cons.injEq] at hd
      obtain ⟨hx, hpost⟩ := hd
      subst hx
      intro ev2 h2
      rw [hpost] at h2
      rcases List.mem_append.mp h2 with hmem | hmem
      · exact hA pre ev mid (by rw [hA']) hid hst ev2 hmem
      · refine hAB ⟨ev, ?_, hid, hst⟩ ev2 hmem
        rw [hA']
        exact List.mem_append_right pre (List.mem_cons_self ev mid)

theorem nea_runJobEntry (db : DB) (fs : ContentStore) (e : JobEntry) (jid : String) :
    NoEventsAfterError jid (runJobEntry db fs e).events := by
  unfold runJobEntry
  dsimp only []
  split
  · exact nea_of_no_error _ _
      (fun ev hev hc => (processJob_events_shape _ _ _ _ _ ev hev).2 hc.2)
  · refine nea_append jid _ _
      (nea_of_no_error _ _
        (fun ev hev hc => (processJob_events_shape _ _ _ _ _ ev hev).2 hc.2))
      (nea_singleton _ _) ?_
    rintro ⟨ev, hev, _, hst⟩
    exact absurd hst ((processJob_events_shape _ _ _ _ _ ev hev).2)

theorem runQueue_events_jobids (db : DB) (fs : ContentStore) (entries : List JobEntry)
    (jid : String) (h : ∀ e ∈ entries, e.job_id ≠ jid) :
    ∀ ev ∈ (runQueue db fs entries).events, ev.job_id ≠ jid := by
  induction entries generalizing db fs with
  | nil =>
    intro ev hev
    simp [runQueue] at hev
  | cons e rest ih =>
    rw [runQueue_cons]
    intro ev hev
    rcases List.mem_append.mp hev with hm | hm
    · rw [runJobEntry_events_jobid db fs e ev hm]
      exact h e (List.mem_cons_self e rest)
    · exact ih _ _ (fun e' he' => h e' (List.mem_cons_of_mem _ he')) ev hm

/-- C7 (failure half, main induction): if a job id is enqueued at most once, then in the
whole worker trace nothing for that job follows its terminal `error` event. -/
theorem runQueue_nea (entries : List JobEntry) (db : DB) (fs : ContentStore) (jid : String)
    (hcount : (entries.filter (fun e => e.job_id == jid)).length ≤ 1) :
    NoEventsAfterError jid (runQueue db fs entries).events := by
  induction entries generalizing db fs with
  | nil =>
    intro pre ev post heq hid hst
    simp [runQueue] at heq
  | cons e rest ih =>
    rw [runQueue_cons]
    refine nea_append jid _ _ (nea_runJobEntry db fs e jid) ?_ ?_
    · apply ih
      by_cases hejid : (e.job_id == jid) = true
      · simp only [List.filter_cons, hejid, if_true, List.length_cons] at hcount
        omega
      · simp only [List.filter_cons, hejid, Bool.false_eq_true, if_false] at hcount
        exact hcount
    · rintro ⟨ev, hev, hid, _⟩
      have hee : e.job_id = jid := by
        rw [← runJobEntry_events_jobid db fs e ev hev, hid]
      have hrest : ∀ e' ∈ rest, e'.job_id ≠ jid := by
        simp only [List.filter_cons, hee, beq_self_eq_true, if_true, List.length_cons] at hcount
        have hlen : (rest.filter (fun e => e.job_id == jid)).length = 0 := by omega
        have hnil := List.length_eq_zero.mp hlen
        intro e' he' hcontra
        have : e' ∈ rest.filter (fun e => e.job_id == jid) :=
          List.mem_filter.mpr ⟨he', by simp [hcontra]⟩
        rw [hnil] at this
        simp at this
      exact runQueue_events_jobids _ _ _ _ hrest

/-! ## Op-log ordering and room-membership facts (`ugc_backend/app.py`) -/

/-- On a list already strictly ascending in `op_id`, the `ORDER BY` sort is the identity. -/
theorem sortByOpId_sorted_id (l : List WorldOpRow)
    (h : List.Pairwise (fun a b => a.op_id < b.op_id) l) : sortByOpId l = l := by
  induction l with
  | nil => rfl
  | cons x xs ih =>
    obtain ⟨hx, htail⟩ := List.pairwise_cons.mp h
    rw [sortByOpId, ih htail]
    cases xs with
    | nil => rfl
    | cons y ys =>
      rw [insertByOpId, if_pos (Nat.le_of_lt (hx y (List.mem_cons_self y ys)))]

theorem get_world_ops_eq_filter (db : DB) (w : String)
    (h : List.Pairwise (fun a b => a.op_id < b.op_id) db.world_ops) :
    get_world_ops db w = db.world_ops.filter (fun o => o.world_id == w) := by
  unfold get_world_ops
  exact sortByOpId_sorted_id _ (h.filter _)

theorem upc_world_ops (db : DB) (w : String) (d : Int) :
    (update_world_player_count db w d).1.world_ops = db.world_ops := rfl

theorem gwo_congr (db1 db2 : DB) (h : db1.world_ops = db2.world_ops) (w : String) :
    get_world_ops db1 w = get_world_ops db2 w := by
  unfold get_world_ops
  rw [h]

/-- `add_world_op` keeps op ids strictly ascending and below the counter. -/
theorem add_world_op_wf (db : DB) (w ty da : String)
    (h : List.Pairwise (fun a b => a.op_id < b.op_id) db.world_ops)
    (hlt : ∀ o ∈ db.world_ops, o.op_id < db.next_op_id) :
    List.Pairwise (fun a b => a.op_id < b.op_id) (add_world_op db w ty da).1.world_ops ∧
    ∀ o ∈ (add_world_op db w ty da).1.world_ops,
      o.op_id < (add_world_op db w ty da).1.next_op_id := by
  constructor
  · refine List.pairwise_append.mpr ⟨h, List.pairwise_singleton _ _, ?_⟩
    intro a ha b hb
    simp only [List.mem_singleton] at hb
    subst hb
    exact hlt a ha
  · intro o ho
    rcases List.mem_append.mp ho with hm | hm
    · exact Nat.lt_succ_of_lt (hlt o hm)
    · simp only [List.mem_singleton] at hm
      subst hm
      exact Nat.lt_succ_self _

/-! ## Player-count invariants -/

def worldsNonneg (db : DB) : Prop := ∀ w ∈ db.worlds, 0 ≤ w.player_count

theorem upc_nonneg (db : DB) (w : String) (d : Int) (h : worldsNonneg db) :
    worldsNonneg (update_world_player_count db w d).1 := by
  intro x hx
  unfold update_world_player_count at hx
  dsimp only [] at hx
  rcases List.mem_map.mp hx with ⟨y, hy, hxy⟩
  by_cases hw : (y.world_id == w) = true
  · rw [if_pos hw] at hxy
    subst hxy
    exact le_max_left 0 _
  · rw [if_neg hw] at hxy
    subst hxy
    exact h y hy

theorem join_nonneg (st : ServerState) (conn : String) (w? : Option String)
    (h : worldsNonneg st.db) : worldsNonneg ((handle_join_world st conn w?).1).db := by
  unfold handle_join_world
  cases w? with
  | none => exact h
  | some wid =>
    dsimp only []
    split
    · exact h
    · split
      · exact h
      · split <;> split <;>
          first
          | exact upc_nonneg _ _ _ (upc_nonneg _ _ _ h)
          | exact upc_nonneg _ _ _ h

theorem leave_nonneg (st : ServerState) (conn : String) (h : worldsNonneg st.db) :
    worldsNonneg ((handle_leave_world st conn).1).db := by
  unfold handle_leave_world
  split
  · exact upc_nonneg _ _ _ h
  · exact h

theorem disconnect_nonneg (st : ServerState) (conn : String) (h : worldsNonneg st.db) :
    worldsNonneg (clientDisconnect st conn).db := by
  unfold clientDisconnect
  dsimp only []
  split
  · exact upc_nonneg _ _ _ h
  · exact h

theorem stepEvent_nonneg (st : ServerState) (e : HubEvent) (h : worldsNonneg st.db) :
    worldsNonneg (stepEvent st e).db := by
  cases e with
  | join conn w => exact join_nonneg st conn w h
  | leave conn => exact leave_nonneg st conn h
  | disconnect conn => exact disconnect_nonneg st conn h

/-! ## Port-scan facts (`server_python/app.py`) -/

/-- `find?` over an ascending range returns the least element satisfying the predicate. -/
theorem find?_range'_min (n : Nat) (a : Nat) (f : Nat → Bool) (p : Nat)
    (h : (List.range' a n).find? f = some p) :
    a ≤ p ∧ p < a + n ∧ f p = true ∧ ∀ q, a ≤ q → q < p → f q = false := by
  induction n generalizing a with
  | zero => simp [List.range'] at h
  | succ n ih =>
    rw [List.range'_succ, List.find?_cons] at h
    cases hfa : f a with
    | true =>
      rw [hfa] at h
      simp only [cond_true, Option.some.injEq] at h
      subst h
      exact ⟨Nat.le_refl _, by omega, hfa, fun q hq1 hq2 => absurd (Nat.lt_of_le_of_lt hq1 hq2)
        (Nat.lt_irrefl _)⟩
    | false =>
      rw [hfa] at h
      simp only [cond_false] at h
      obtain ⟨h1, h2, h3, h4⟩ := ih (a + 1) h
      refine ⟨by omega, by omega, h3, ?_⟩
      intro q hq1 hq2
      rcases Nat.eq_or_lt_of_le hq1 with heq | hlt
      · rw [← heq]
        exact hfa
      · exact h4 q hlt hq2

/-- Popping the (dead) cached entry of a world with no live handle does not change the
set of live entries. -/
theorem prune_pop_dead (rs : RunningServers) (wid : String)
    (hnl : ∀ e ∈ rs, e.1 = wid → e.2.alive = false) :
    (rs.filter (fun x => !(x.1 == wid))).filter (fun e => is_server_alive e.2) =
      rs.filter (fun e => is_server_alive e.2) := by
  rw [List.filter_filter]
  apply List.filter_congr
  intro e he
  cases ha : is_server_alive e.2 with
  | false => simp
  | true =>
    have hne : e.1 ≠ wid := by
      intro hw
      have := hnl e he hw
      rw [is_server_alive] at ha
      rw [this] at ha
      exact Bool.false_ne_true ha
    simp [hne]

theorem start_game_server_none (rs : RunningServers) (wid : String) (b : ProcBehavior)
    (hfail : b.spawnOk = false ∨ b.waitOutcome = WaitOutcome.timedOutExited ∨
      b.probeOutcome ≠ ProbeOutcome.connected) :
    (start_game_server rs wid b).2 = none := by
  unfold start_game_server
  try dsimp only []
  cases hp : (find_available_port rs).2 with
  | none => rfl
  | some base =>
    try dsimp only []
    cases hs : b.spawnOk with
    | false => rfl
    | true =>
      try dsimp only [Bool.not_true]
      rw [if_neg (by simp)]
      cases hw : b.waitOutcome with
      | timedOutExited => rfl
      | ready =>
        cases hpr : b.probeOutcome with
        | connected =>
          exfalso
          rcases hfail with h | h | h
          · rw [hs] at h
            exact absurd h (by decide)
          · rw [hw] at h
            exact absurd h (by decide)
          · exact h hpr
        | processDied => rfl
        | timedOut => rfl
      | timedOutAlive =>
        cases hpr : b.probeOutcome with
        | connected =>
          exfalso
          rcases hfail with h | h | h
          · rw [hs] at h
            exact absurd h (by decide)
          · rw [hw] at h
            exact absurd h (by decide)
          · exact h hpr
        | processDied => rfl
        | timedOut => rfl

theorem start_game_server_fst (rs : RunningServers) (wid : String) (b : ProcBehavior) :
    (start_game_server rs wid b).1 = rs.filter (fun e => is_server_alive e.2) := by
  unfold start_game_server
  try dsimp only []
  cases hp : (find_available_port rs).2 with
  | none => rfl
  | some base =>
    try dsimp only []
    cases b.spawnOk with
    | false => rfl
    | true =>
      try dsimp only [Bool.not_true]
      rw [if_neg (by simp)]
      cases b.waitOutcome <;> try rfl
      all_goals cases b.probeOutcome <;> rfl

/-! ## Session-store facts -/

theorem lookupSession_validate_pres_none (store : SessionStore) (tok : String)
    (tok2 : String) (t2 : Nat) (h : lookupSession store tok = none) :
    lookupSession (validate_session store tok2 t2).1 tok = none := by
  unfold validate_session
  cases lookupSession store tok2 with
  | none => exact h
  | some s =>
    dsimp only []
    split
    · unfold lookupSession at h ⊢
      rw [Option.map_eq_none'] at h ⊢
      rw [List.find?_eq_none] at h ⊢
      intro x hx
      exact h x (List.mem_of_mem_filter hx)
    · exact h

theorem runValidates_pres_none (calls : List (String × Nat)) (store : SessionStore)
    (tok : String) (h : lookupSession store tok = none) :
    lookupSession (runValidates store calls) tok = none := by
  induction calls generalizing store with
  | nil => exact h
  | cons c rest ih =>
    rw [runValidates]
    exact ih _ (lookupSession_validate_pres_none store tok c.1 c.2 h)

theorem lookupSession_evicted (store : SessionStore) (tok : String) :
    lookupSession (store.filter (fun e => !(e.1 == tok))) tok = none := by
  unfold lookupSession
  rw [Option.map_eq_none', List.find?_eq_none]
  intro x hx
  have := List.of_mem_filter hx
  simp only [Bool.not_eq_true'] at this
  simp [this]

/-! ## Channel-whitelist facts (`update_spell_active_revision`) -/

theorem str_mid_cancel (pre suf a b : String) (h : pre ++ a ++ suf = pre ++ b ++ suf) :
    a = b := by
  have hd := congrArg String.data h
  simp only [String.data_append] at hd
  have h2 := List.append_cancel_right hd
  exact congrArg String.mk (List.append_cancel_left h2)

theorem channel_whitelist (ch : String)
    (h : ("active_" ++ ch ++ "_rev") ∈
      (["active_draft_rev", "active_beta_rev", "active_stable_rev"] : List String)) :
    ch = "draft" ∨ ch = "beta" ∨ ch = "stable" := by
  simp only [List.mem_cons, List.mem_singleton, List.not_mem_nil, or_false] at h
  rcases h with h | h | h
  · rw [show ("active_draft_rev" : String) = "active_" ++ "draft" ++ "_rev" from rfl] at h
    exact Or.inl (str_mid_cancel "active_" "_rev" ch "draft" h)
  · rw [show ("active_beta_rev" : String) = "active_" ++ "beta" ++ "_rev" from rfl] at h
    exact Or.inr (Or.inl (str_mid_cancel "active_" "_rev" ch "beta" h))
  · rw [show ("active_stable_rev" : String) = "active_" ++ "stable" ++ "_rev" from rfl] at h
    exact Or.inr (Or.inr (str_mid_cancel "active_" "_rev" ch "stable" h))

theorem usar_bad_channel (db : DB) (sid ch rid : String)
    (hch : ch ∉ (["draft", "beta", "stable"] : List String)) :
    update_spell_active_revision db sid ch rid = (db, false) := by
  unfold update_spell_active_revision
  rw [if_neg]
  intro hmem
  rcases channel_whitelist ch hmem with h | h | h <;> subst h <;> simp at hch

theorem get_spell_congr (db1 db2 : DB) (h : db1.spells = db2.spells) (s : String) :
    get_spell db1 s = get_spell db2 s := by
  unfold get_spell
  rw [h]

theorem validate_session_of_none (store : SessionStore) (tok : String) (t : Nat)
    (h : lookupSession store tok = none) : validate_session store tok t = (store, none) := by
  unfold validate_session
  rw [h]

/-! ## Claim theorems -/

/-- C8: for every byte string stored through `write_revision_file`, the returned file
info records the SHA-256 hex digest of the written bytes (together with the relative
path and byte size), and reading the same `(spell_id, revision_id, relative_path)` back
through `read_revision_file` yields bytes whose recomputed digest equals that stored
hash. -/
theorem claim_C8 (fs : ContentStore) (spell_id revision_id relative_path : String)
    (content : List Nat) :
    ((write_revision_file fs spell_id revision_id relative_path content).2).hash =
      compute_file_hash content ∧
    ((write_revision_file fs spell_id revision_id relative_path content).2).path =
      relative_path ∧
    ((write_revision_file fs spell_id revision_id relative_path content).2).size =
      content.length ∧
    ∃ bs,
      read_revision_file (write_revision_file fs spell_id revision_id relative_path content).1
        spell_id revision_id relative_path = some bs ∧
      compute_file_hash bs =
        ((write_revision_file fs spell_id revision_id relative_path content).2).hash := by
  refine ⟨rfl, rfl, rfl, content, ?_, rfl⟩
  unfold read_revision_file write_revision_file
  dsimp only []
  rw [List.find?_cons, beq_self_eq_true]
  rfl

/-- C9: `validate_session` returns the stored session exactly when the token maps to a
session whose expiry is not in the past; on an expired session it evicts the entry and
returns not-found, after which any further sequence of `validate_session` calls still
finds nothing for that token; an unknown token returns not-found and leaves the store
unchanged. -/
theorem claim_C9 (store : SessionStore) (token : String) (now : Nat) :
    (∀ s, (validate_session store token now).2 = some s ↔
      lookupSession store token = some s ∧ now ≤ s.expires_at) ∧
    (lookupSession store token = none → validate_session store token now = (store, none)) ∧
    (∀ s, lookupSession store token = some s → s.expires_at < now →
      (validate_session store token now).2 = none ∧
      ∀ (calls : List (String × Nat)) (t2 : Nat),
        (validate_session (runValidates (validate_session store token now).1 calls)
          token t2).2 = none) := by
  refine ⟨?_, ?_, ?_⟩
  · intro s
    unfold validate_session
    cases hl : lookupSession store token with
    | none =>
      constructor
      · intro h
        exact absurd h (by simp)
      · intro ⟨hs, _⟩
        exact absurd hs (by simp)
    | some s0 =>
      dsimp only []
      split
      · constructor
        · intro h
          exact absurd h (by simp)
        · intro ⟨hs, hle⟩
          have : s0 = s := by
            injection hs
          subst this
          omega
      · constructor
        · intro h
          have : s0 = s := by
            injection h
          subst this
          exact ⟨rfl, by omega⟩
        · intro ⟨hs, _⟩
          have : s0 = s := by
            injection hs
          subst this
          rfl
  · exact validate_session_of_none store token now
  · intro s hs hexp
    have hfst : (validate_session store token now).1 =
        store.filter (fun e => !(e.1 == token)) := by
      unfold validate_session
      rw [hs]
      dsimp only []
      rw [if_pos hexp]
    have hsnd : (validate_session store token now).2 = none := by
      unfold validate_session
      rw [hs]
      dsimp only []
      rw [if_pos hexp]
    refine ⟨hsnd, ?_⟩
    intro calls t2
    have h2 := runValidates_pres_none calls _ token
      (hfst ▸ lookupSession_evicted store token)
    rw [validate_session_of_none _ _ _ h2]

/-- C10: for every channel outside `{draft, beta, stable}`,
`update_spell_active_revision` refuses the interpolated column name, returns `False`
and leaves the database untouched; consequently the publish endpoint, which forwards
the client-supplied channel unvalidated, cannot modify the spells table through it. -/
theorem claim_C10 (db : DB) (spell_id channel revision_id : String)
    (hch : channel ∉ (["draft", "beta", "stable"] : List String)) :
    update_spell_active_revision db spell_id channel revision_id = (db, false) ∧
    ∀ (sessions : SessionStore) (fs : ContentStore) (auth : Option String) (now : Nat)
      (rid? : Option String),
      (api_publish_spell sessions db fs spell_id auth now rid? (some channel)).db = db := by
  have hu : ∀ rid, update_spell_active_revision db spell_id channel rid = (db, false) :=
    fun rid => usar_bad_channel db spell_id channel rid hch
  refine ⟨hu revision_id, ?_⟩
  intro sessions fs auth now rid?
  unfold api_publish_spell
  cases auth with
  | none => rfl
  | some token =>
    try dsimp only []
    split
    · rfl
    · try dsimp only []
      cases rid? with
      | none => rfl
      | some rid =>
        try dsimp only []
        split
        · rfl
        · split
          · rfl
          · simp only [Option.getD_some]
            rw [hu rid]

/-- C4: under any sequence of join/leave/disconnect operations, every world's
`player_count` stays non-negative (each decrement passes through the `MAX(0, ...)`
clamp of `update_world_player_count`), and a connection is a member of at most one
world room at any time (the `client_worlds` lookup is single-valued). -/
theorem claim_C4 (st : ServerState) (evs : List HubEvent) (h : worldsNonneg st.db) :
    worldsNonneg ((evs.foldl stepEvent st).db) ∧
    ∀ conn w1 w2,
      lookupClientWorld (evs.foldl stepEvent st) conn = some w1 →
      lookupClientWorld (evs.foldl stepEvent st) conn = some w2 → w1 = w2 := by
  constructor
  · induction evs generalizing st with
    | nil => exact h
    | cons e rest ih =>
      rw [List.foldl_cons]
      exact ih (stepEvent st e) (stepEvent_nonneg st e h)
  · intro conn w1 w2 h1 h2
    rw [h1] at h2
    injection h2

/-- C6: when the launched simulation process fails (spawn error, exit during the
readiness wait, or failure of the TCP probe), `get_or_start_game_server` returns no
handle and leaves no cached entry for that world in the running-servers map. -/
theorem claim_C6 (rs : RunningServers) (wid : String) (b : ProcBehavior)
    (hnl : ∀ e ∈ rs, e.1 = wid → e.2.alive = false)
    (hfail : b.spawnOk = false ∨ b.waitOutcome = WaitOutcome.timedOutExited ∨
      b.probeOutcome ≠ ProbeOutcome.connected) :
    (get_or_start_game_server rs wid b).2 = none ∧
    (get_or_start_game_server rs wid b).1.find? (fun e => e.1 == wid) = none := by
  unfold get_or_start_game_server
  cases hfind : rs.find? (fun e => e.1 == wid) with
  | none =>
    dsimp only []
    rw [start_game_server_none _ _ _ hfail]
    refine ⟨rfl, ?_⟩
    rw [start_game_server_fst]
    apply List.find?_eq_none.mpr
    intro e he
    have hmem := List.mem_filter.mp he
    have := List.find?_eq_none.mp hfind e hmem.1
    simpa using this
  | some e0 =>
    have hmem := List.mem_of_find?_eq_some hfind
    have hkey0 := @List.find?_some _ (fun e => e.1 == wid) e0 rs hfind
    have hkey : e0.1 = wid := eq_of_beq hkey0
    have hal := hnl e0 hmem hkey
    dsimp only []
    rw [if_neg (by rw [is_server_alive, hal]; simp)]
    rw [start_game_server_none _ _ _ hfail]
    refine ⟨rfl, ?_⟩
    rw [start_game_server_fst]
    apply List.find?_eq_none.mpr
    intro e he
    have hmem2 := (List.mem_filter.mp he).1
    have := (List.mem_filter.mp hmem2).2
    simpa using this
/-! ## Port exhaustion helpers -/

theorem fap_none_of_exhausted (rs : RunningServers)
    (hex : ∀ q, 7777 ≤ q → q < 7877 →
      (usedPorts (rs.filter (fun e => is_server_alive e.2))).contains q = true) :
    (find_available_port rs).2 = none := by
  unfold find_available_port
  dsimp only []
  apply List.find?_eq_none.mpr
  intro q hq
  have hb := List.mem_range'_1.mp hq
  have hc := hex q hb.1 (by omega)
  rw [hc]
  decide

theorem start_game_server_no_port (rs : RunningServers) (wid : String) (b : ProcBehavior)
    (h : (find_available_port rs).2 = none) : (start_game_server rs wid b).2 = none := by
  unfold start_game_server
  dsimp only []
  rw [h]

theorem get_or_start_none_of_exhausted (rs : RunningServers) (wid : String) (b : ProcBehavior)
    (hnl : ∀ e ∈ rs, e.1 = wid → e.2.alive = false)
    (hex : ∀ q, 7777 ≤ q → q < 7877 →
      (usedPorts (rs.filter (fun e => is_server_alive e.2))).contains q = true) :
    (get_or_start_game_server rs wid b).2 = none := by
  unfold get_or_start_game_server
  cases hfind : rs.find? (fun e => e.1 == wid) with
  | none =>
    dsimp only []
    rw [start_game_server_no_port _ _ _ (fap_none_of_exhausted rs hex)]
  | some e0 =>
    have hmem := List.mem_of_find?_eq_some hfind
    have hkey0 := @List.find?_some _ (fun e => e.1 == wid) e0 rs hfind
    have hkey : e0.1 = wid := eq_of_beq hkey0
    have hal := hnl e0 hmem hkey
    dsimp only []
    rw [if_neg (by rw [is_server_alive, hal]; simp)]
    have hex2 : ∀ q, 7777 ≤ q → q < 7877 →
        (usedPorts ((rs.filter (fun x => !(x.1 == wid))).filter
          (fun e => is_server_alive e.2))).contains q = true := by
      intro q h1 h2
      rw [prune_pop_dead rs wid hnl]
      exact hex q h1 h2
    rw [start_game_server_no_port _ _ _ (fap_none_of_exhausted _ hex2)]

theorem validate_session_valid (store : SessionStore) (token : String) (now : Nat)
    (s : Session) (hs : lookupSession store token = some s) (hle : now ≤ s.expires_at) :
    validate_session store token now = (store, some s) := by
  unfold validate_session
  rw [hs]
  dsimp only []
  rw [if_neg (by omega)]

/-! ## Remaining claim theorems -/

/-- C1: for every spell, running a FIFO queue of build jobs each carrying a valid
script appends exactly one revision row per queue entry, whose versions form the
consecutive run `get_next_version db s, +1, +2, ...` (1 + the maximum version already
stored, hence 1 on a fresh spell) with no duplicates; each row carries the very version
allocated at assemble time inside its `rev_NNNNNN_nonce` identifier, so the version
recorded at finalize equals the one allocated at assemble. -/
theorem claim_C1 (entries : List JobEntry) (db : DB) (fs : ContentStore) (s : String)
    (hjob : ∀ e ∈ entries, ∃ j, get_job db e.job_id = some j ∧ j.spell_id = s)
    (hvalid : ∀ e ∈ entries,
      hasSubstr "func on_cast" (e.options.code.getD (generate_stub_spell s)) = true) :
    ∃ rows : List RevisionRow,
      (runQueue db fs entries).db.revisions = db.revisions ++ rows ∧
      rows.map (fun r => r.version) = List.range' (get_next_version db s) entries.length ∧
      List.Forall₂ (fun (r : RevisionRow) (e : JobEntry) =>
        r.spell_id = s ∧ r.channel = "draft" ∧
        r.revision_id = mkRevisionId r.version e.nonce) rows entries :=
  runQueue_versions entries db fs s hjob hvalid

/-- C2: a build job whose supplied script lacks the `on_cast` handler ends with the
job row marked `failed` carrying `error_message = "Missing required methods: on_cast"`,
a terminal progress event of stage `error` and pct 0 as the last event, no new revision
row, and the spell row (hence its active draft-channel pointer) unchanged. -/
theorem claim_C2 (db : DB) (fs : ContentStore) (e : JobEntry) (j : JobRow) (script : String)
    (hj : get_job db e.job_id = some j)
    (hcode : e.options.code = some script)
    (hinvalid : hasSubstr "func on_cast" script = false)
    (hne : script ≠ "") :
    (∃ row, get_job (runJobEntry db fs e).db e.job_id = some row ∧
      row.status = "failed" ∧
      row.error_message = some "Missing required methods: on_cast") ∧
    (runJobEntry db fs e).events.getLast? =
      some (emitEv e.job_id "error" 0 "Build failed: Missing required methods: on_cast") ∧
    (runJobEntry db fs e).db.revisions = db.revisions ∧
    get_spell (runJobEntry db fs e).db j.spell_id = get_spell db j.spell_id := by
  obtain ⟨msg, himp, hrev, hsp, ⟨row, hrow, hst, herr, _⟩, hlast⟩ :=
    runJobEntry_invalid db fs e j script hj hcode hinvalid
  have hmsg := himp hne
  subst hmsg
  exact ⟨⟨row, hrow, hst, herr⟩, hlast, hrev, get_spell_congr _ _ hsp _⟩

/-- C3: a connection joining an existing world receives the join confirmation followed
by a single `sync_ops` replay holding exactly the world's logged ops in append
(ascending `op_id`) order, or a single `sync_complete` notice when the log is empty. -/
theorem claim_C3 (st : ServerState) (conn wid : String)
    (hne : wid ≠ "")
    (hex : world_exists st.db wid = true)
    (hwf : List.Pairwise (fun a b => a.op_id < b.op_id) st.db.world_ops) :
    ∃ w : Option WorldRow,
      (st.db.world_ops.filter (fun o => o.world_id == wid) = [] →
        (handle_join_world st conn (some wid)).2 =
          [OutMsg.worldJoined wid w, OutMsg.syncComplete "World is empty"]) ∧
      (st.db.world_ops.filter (fun o => o.world_id == wid) ≠ [] →
        (handle_join_world st conn (some wid)).2 =
          [OutMsg.worldJoined wid w,
           OutMsg.syncOps ((st.db.world_ops.filter (fun o => o.world_id == wid)).map
             (fun o => (o.op_type, o.op_data)))]) := by
  have hbe : (wid == "") = false := beq_eq_false_iff_ne.mpr hne
  obtain ⟨w0, hw0⟩ := Option.isSome_iff_exists.mp hex
  unfold handle_join_world
  dsimp only []
  rw [hbe]
  simp only [Bool.false_eq_true, if_false]
  rw [hw0]
  dsimp only []
  cases hlk : lookupClientWorld st conn with
  | none =>
    dsimp only []
    have hops : get_world_ops (update_world_player_count st.db wid 1).1 wid =
        st.db.world_ops.filter (fun o => o.world_id == wid) := by
      exact (gwo_congr _ st.db rfl wid).trans (get_world_ops_eq_filter st.db wid hwf)
    rw [hops]
    refine ⟨get_world (update_world_player_count st.db wid 1).1 wid, ?_, ?_⟩
    · intro hnil
      rw [hnil]
      rfl
    · intro hnonnil
      cases hcase : st.db.world_ops.filter (fun o => o.world_id == wid) with
      | nil => exact absurd hcase hnonnil
      | cons x xs => rfl
  | some cur =>
    dsimp only []
    have hops : get_world_ops
        (update_world_player_count (update_world_player_count st.db cur (-1)).1 wid 1).1 wid =
        st.db.world_ops.filter (fun o => o.world_id == wid) := by
      exact (gwo_congr _ st.db rfl wid).trans (get_world_ops_eq_filter st.db wid hwf)
    rw [hops]
    refine ⟨get_world
      (update_world_player_count (update_world_player_count st.db cur (-1)).1 wid 1).1 wid,
      ?_, ?_⟩
    · intro hnil
      rw [hnil]
      rfl
    · intro hnonnil
      cases hcase : st.db.world_ops.filter (fun o => o.world_id == wid) with
      | nil => exact absurd hcase hnonnil
      | cons x xs => rfl

/-- C5: the supervisor's port suggestion first prunes dead cached handles, then picks
the lowest port of the fixed range `[7777, 7877)` not claimed by any live handle; when
every port of the range is claimed the suggestion fails and a join attempt that reaches
the launcher (valid session, existing world, no live cached handle) is answered with
the server error. -/
theorem claim_C5 (rs : RunningServers) :
    (find_available_port rs).1 = rs.filter (fun e => is_server_alive e.2) ∧
    (∀ p, (find_available_port rs).2 = some p →
      7777 ≤ p ∧ p < 7877 ∧
      (usedPorts (rs.filter (fun e => is_server_alive e.2))).contains p = false ∧
      ∀ q, 7777 ≤ q → q < p →
        (usedPorts (rs.filter (fun e => is_server_alive e.2))).contains q = true) ∧
    ((∀ q, 7777 ≤ q → q < 7877 →
        (usedPorts (rs.filter (fun e => is_server_alive e.2))).contains q = true) →
      (find_available_port rs).2 = none ∧
      ∀ (sessions : SessionStore) (db : DB) (token wid nonce : String) (now : Nat)
        (b : ProcBehavior) (sess : Session),
        lookupSession sessions token = some sess → now ≤ sess.expires_at →
        world_exists db wid = true →
        (∀ e ∈ rs, e.1 = wid → e.2.alive = false) →
        (join_endpoint sessions db rs (some token) now (some wid) nonce b).result =
          JoinResult.serverError "Failed to start game server") := by
  refine ⟨rfl, ?_, ?_⟩
  · intro p hp
    have hp' : (List.range' 7777 100).find?
        (fun q => !((usedPorts (rs.filter (fun e => is_server_alive e.2))).contains q)) =
        some p := hp
    obtain ⟨h1, h2, h3, h4⟩ := find?_range'_min 100 7777 _ p hp'
    refine ⟨h1, by omega, by simpa using h3, ?_⟩
    intro q hq1 hq2
    have := h4 q hq1 hq2
    simpa using this
  · intro hex
    refine ⟨fap_none_of_exhausted rs hex, ?_⟩
    intro sessions db token wid nonce now b sess hs hle hw hnl
    unfold join_endpoint
    try dsimp only []
    rw [validate_session_valid sessions token now sess hs hle]
    try dsimp only []
    rw [hw]
    try dsimp only []
    rw [get_or_start_none_of_exhausted rs wid b hnl hex]
    rw [if_neg (by decide)]

/-- C7: the pct values of the progress events of a successfully completed build are
exactly the fixed checkpoint run prepare(0,5,15), assemble_package(20,30,45,55),
validate(60,75), finalize(80,90,95), done(100) — non-decreasing and ending at 100 —
and in the worker trace of any queue enqueueing a given job id at most once, no event
for that job follows its terminal `error` event. -/
theorem claim_C7 (db : DB) (fs : ContentStore) (e : JobEntry) (j : JobRow)
    (entries : List JobEntry) (jid : String)
    (hj : get_job db e.job_id = some j)
    (hvalid : hasSubstr "func on_cast"
      (e.options.code.getD (generate_stub_spell j.spell_id)) = true)
    (hcount : (entries.filter (fun en => en.job_id == jid)).length ≤ 1) :
    ((runJobEntry db fs e).events.map (fun ev => (ev.stage, ev.pct)) = successCheckpoints ∧
     (runJobEntry db fs e).events.map (fun ev => ev.pct) =
       [0, 5, 15, 20, 30, 45, 55, 60, 75, 80, 90, 95, 100] ∧
     List.Pairwise (fun a b => a ≤ b) ((runJobEntry db fs e).events.map (fun ev => ev.pct)) ∧
     ((runJobEntry db fs e).events.map (fun ev => ev.pct)).getLast? = some 100) ∧
    NoEventsAfterError jid (runQueue db fs entries).events := by
  have h1 := (runJobEntry_success db fs e j hj hvalid).1
  have hm := congrArg (List.map Prod.snd) h1
  rw [List.map_map] at hm
  have hpct : (runJobEntry db fs e).events.map (fun ev => ev.pct) =
      [0, 5, 15, 20, 30, 45, 55, 60, 75, 80, 90, 95, 100] := hm
  refine ⟨⟨h1, hpct, ?_, ?_⟩, runQueue_nea entries db fs jid hcount⟩
  · rw [hpct]
    decide
  · rw [hpct]
    rfl
/-! ## Concrete fixtures for the claim theorems -/

def wspell : SpellRow := ⟨"fireball", "Fireball", none, none, none⟩

def wjob1 : JobRow := ⟨"job1", "fireball", none, "pending", "waiting", 0, none, none, none⟩

def wjob9 : JobRow := ⟨"job9", "fireball", none, "pending", "waiting", 0, none, none, none⟩

def wdb1 : DB := ⟨[wspell], [], [wjob1, wjob9], [], [], 1⟩

def wgoodCode : String := "func on_cast(ctx):\n    pass\n"

def wbadCode : String := "func cast(ctx):\n    pass\n"

def wmetaNone : MetaOptions := ⟨none, none, none, none⟩

def woptsGood : BuildOptions := ⟨some wgoodCode, none, none, wmetaNone, none⟩

def woptsBad : BuildOptions := ⟨some wbadCode, none, none, wmetaNone, none⟩

def wentry1 : JobEntry := ⟨"job1", woptsGood, "abcd1234"⟩

def wentry9 : JobEntry := ⟨"job9", woptsBad, "deadbeef"⟩

def wworld : WorldRow := ⟨"w1", "World One", none, none, 0⟩

def wop1 : WorldOpRow := ⟨1, "w1", "place", "d1"⟩

def wop2 : WorldOpRow := ⟨2, "w1", "remove", "d2"⟩

def wdbW : DB := ⟨[], [], [], [wworld], [wop1, wop2], 3⟩

def wstW : ServerState := ⟨wdbW, [], ["c1"]⟩

def wdeadHandle : GameServerHandle := ⟨"w1", "127.0.0.1", 7777, "ws://127.0.0.1:7777", false⟩

def wrsDead : RunningServers := [("w1", wdeadHandle)]

def wbehFail : ProcBehavior := ⟨false, none, WaitOutcome.ready, ProbeOutcome.timedOut⟩

def wsessA : Session := ⟨"tokA", "client_x", "alice", 10, 50⟩

def wstoreA : SessionStore := [("tokA", wsessA)]

/-! ## Witnesses -/

theorem claim_C1_witness :
    ∃ rows : List RevisionRow,
      (runQueue wdb1 emptyCS [wentry1]).db.revisions = wdb1.revisions ++ rows ∧
      rows.map (fun r => r.version) = List.range' (get_next_version wdb1 "fireball") 1 ∧
      List.Forall₂ (fun (r : RevisionRow) (e : JobEntry) =>
        r.spell_id = "fireball" ∧ r.channel = "draft" ∧
        r.revision_id = mkRevisionId r.version e.nonce) rows [wentry1] :=
  claim_C1 [wentry1] wdb1 emptyCS "fireball"
    (by
      intro e he
      simp only [List.mem_singleton] at he
      subst he
      exact ⟨wjob1, rfl, rfl⟩)
    (by
      intro e he
      simp only [List.mem_singleton] at he
      subst he
      decide)

theorem claim_C2_witness :
    (∃ row, get_job (runJobEntry wdb1 emptyCS wentry9).db "job9" = some row ∧
      row.status = "failed" ∧
      row.error_message = some "Missing required methods: on_cast") ∧
    (runJobEntry wdb1 emptyCS wentry9).events.getLast? =
      some (emitEv "job9" "error" 0 "Build failed: Missing required methods: on_cast") ∧
    (runJobEntry wdb1 emptyCS wentry9).db.revisions = wdb1.revisions ∧
    get_spell (runJobEntry wdb1 emptyCS wentry9).db wjob9.spell_id =
      get_spell wdb1 wjob9.spell_id :=
  claim_C2 wdb1 emptyCS wentry9 wjob9 wbadCode rfl rfl (by decide) (by decide)

theorem claim_C3_witness :
    ∃ w : Option WorldRow,
      (wstW.db.world_ops.filter (fun o => o.world_id == "w1") = [] →
        (handle_join_world wstW "c1" (some "w1")).2 =
          [OutMsg.worldJoined "w1" w, OutMsg.syncComplete "World is empty"]) ∧
      (wstW.db.world_ops.filter (fun o => o.world_id == "w1") ≠ [] →
        (handle_join_world wstW "c1" (some "w1")).2 =
          [OutMsg.worldJoined "w1" w,
           OutMsg.syncOps ((wstW.db.world_ops.filter (fun o => o.world_id == "w1")).map
             (fun o => (o.op_type, o.op_data)))]) :=
  claim_C3 wstW "c1" "w1" (by decide) (by decide) (by decide)

theorem claim_C4_witness :
    worldsNonneg ((([HubEvent.join "c1" (some "w1"), HubEvent.leave "c1"] :
      List HubEvent).foldl stepEvent wstW).db) ∧
    ∀ conn w1 w2,
      lookupClientWorld (([HubEvent.join "c1" (some "w1"), HubEvent.leave "c1"] :
        List HubEvent).foldl stepEvent wstW) conn = some w1 →
      lookupClientWorld (([HubEvent.join "c1" (some "w1"), HubEvent.leave "c1"] :
        List HubEvent).foldl stepEvent wstW) conn = some w2 → w1 = w2 :=
  claim_C4 wstW [HubEvent.join "c1" (some "w1"), HubEvent.leave "c1"]
    (by
      intro w hw
      have hw2 : w ∈ [wworld] := hw
      simp only [List.mem_singleton] at hw2
      subst hw2
      decide)

theorem claim_C5_witness :
    (find_available_port ([] : RunningServers)).1 =
      ([] : RunningServers).filter (fun e => is_server_alive e.2) ∧
    (∀ p, (find_available_port ([] : RunningServers)).2 = some p →
      7777 ≤ p ∧ p < 7877 ∧
      (usedPorts (([] : RunningServers).filter (fun e => is_server_alive e.2))).contains p
        = false ∧
      ∀ q, 7777 ≤ q → q < p →
        (usedPorts (([] : RunningServers).filter (fun e => is_server_alive e.2))).contains q
          = true) ∧
    ((∀ q, 7777 ≤ q → q < 7877 →
        (usedPorts (([] : RunningServers).filter (fun e => is_server_alive e.2))).contains q
          = true) →
      (find_available_port ([] : RunningServers)).2 = none ∧
      ∀ (sessions : SessionStore) (db : DB) (token wid nonce : String) (now : Nat)
        (b : ProcBehavior) (sess : Session),
        lookupSession sessions token = some sess → now ≤ sess.expires_at →
        world_exists db wid = true →
        (∀ e ∈ ([] : RunningServers), e.1 = wid → e.2.alive = false) →
        (join_endpoint sessions db [] (some token) now (some wid) nonce b).result =
          JoinResult.serverError "Failed to start game server") :=
  claim_C5 []

theorem claim_C6_witness :
    (get_or_start_game_server wrsDead "w1" wbehFail).2 = none ∧
    (get_or_start_game_server wrsDead "w1" wbehFail).1.find? (fun e => e.1 == "w1") = none :=
  claim_C6 wrsDead "w1" wbehFail (by decide) (Or.inl rfl)

theorem claim_C7_witness :
    ((runJobEntry wdb1 emptyCS wentry1).events.map (fun ev => (ev.stage, ev.pct)) =
        successCheckpoints ∧
     (runJobEntry wdb1 emptyCS wentry1).events.map (fun ev => ev.pct) =
       [0, 5, 15, 20, 30, 45, 55, 60, 75, 80, 90, 95, 100] ∧
     List.Pairwise (fun a b => a ≤ b)
       ((runJobEntry wdb1 emptyCS wentry1).events.map (fun ev => ev.pct)) ∧
     ((runJobEntry wdb1 emptyCS wentry1).events.map (fun ev => ev.pct)).getLast? =
       some 100) ∧
    NoEventsAfterError "job9" (runQueue wdb1 emptyCS [wentry9]).events :=
  claim_C7 wdb1 emptyCS wentry1 wjob1 [wentry9] "job9" rfl (by decide) (by decide)

theorem claim_C9_witness :
    (∀ s, (validate_session wstoreA "tokA" 40).2 = some s ↔
      lookupSession wstoreA "tokA" = some s ∧ 40 ≤ s.expires_at) ∧
    (lookupSession wstoreA "tokA" = none →
      validate_session wstoreA "tokA" 40 = (wstoreA, none)) ∧
    (∀ s, lookupSession wstoreA "tokA" = some s → s.expires_at < 40 →
      (validate_session wstoreA "tokA" 40).2 = none ∧
      ∀ (calls : List (String × Nat)) (t2 : Nat),
        (validate_session (runValidates (validate_session wstoreA "tokA" 40).1 calls)
          "tokA" t2).2 = none) :=
  claim_C9 wstoreA "tokA" 40

theorem claim_C10_witness :
    update_spell_active_revision wdb1 "fireball" "prod" "rev1" = (wdb1, false) ∧
    ∀ (sessions : SessionStore) (fs : ContentStore) (auth : Option String) (now : Nat)
      (rid? : Option String),
      (api_publish_spell sessions wdb1 fs "fireball" auth now rid? (some "prod")).db = wdb1 :=
  claim_C10 wdb1 "fireball" "prod" "rev1" (by decide)
